import Mathlib

/-!
MusicPlayer20: the playback controller of `src/app.js`

A shallow embedding of the player state of `app.js` (the module-level `let`
variables, the parts of the audio element and of the page that the handlers
read or write, and the pending `setTimeout` timers) together with the handlers
`loadSong`, `togglePlay`, `playPrevious`, `playNext`, `toggleShuffle`,
`toggleRepeat`, `showNextSongPopup`, `updateProgress` and the song import.

Conventions of the embedding:

* indices are `Int` (JavaScript numbers that only ever hold integers here);
  `%` on them is the truncating remainder `Int.tmod`, as in JavaScript;
* times are rationals in seconds (every finite double is one);
  `audio.duration` is `none` for `NaN`; comparisons of doubles are exact, but
  their subtraction, division and multiplication round, so these three
  operations are parameters (`Numerics`), and every theorem holds whatever
  they return;
* `getRandomIndex` (from `player-utils.js`) is not deterministic: every handler
  that may call it takes the value returned by that call as the argument `r`;
* `formatTime` (from `player-utils.js`, a field of `Numerics`) and
  `defaultCoverArt` (from `config.js`) are parameters;
* a handler that can raise a `TypeError` returns an `Outcome`, which keeps the
  state reached at the point of the throw (the globals stay mutated);
* `setupTitleScrolling` and `updateActiveInPlaylist` only touch CSS classes
  derived from layout and from `currentSongIndex`; they are not recorded.
-/

namespace MusicPlayer

/-- A song record as built by `handleSongImport` (fields the controller reads). -/
structure Song where
  url : Option String
  title : String
  artist : String
  coverUrl : Option String
  hasEmbeddedCover : Bool
  deriving DecidableEq

/-- JavaScript truthiness of a value that is `null` or a string. -/
def truthy : Option String → Bool
  | none => false
  | some str => str != ""

/-- The fields of the `<audio>` element the handlers read or write.
`playing` records the last `play()` / `pause()` command. -/
structure Audio where
  src : String
  currentTime : ℚ
  duration : Option ℚ
  playing : Bool
  deriving DecidableEq

/-- The icon inside the play button (`fa-play` or `fa-pause`). -/
inductive Icon where
  | play
  | pause
  deriving DecidableEq

/-- The three callbacks the program passes to `setTimeout`:
the 100 ms popup schedule of `updateProgress`, and the 5000 ms and 300 ms
callbacks of `showNextSongPopup`. -/
inductive Callback where
  | showPopup
  | fadePopup
  | hidePopup
  deriving DecidableEq

/-- A pending timer: its handle, its delay in milliseconds, its callback. -/
structure Timer where
  id : Nat
  delay : Nat
  callback : Callback
  deriving DecidableEq

/-- The player state: the globals of `app.js` (lines 34-42), the audio element,
the page elements written by the handlers, and the pending timers.
`bgImage` is the URL inside the `--bg-image` property, `progressWidth` the
percentage in `progress.style.width`.
`timerSeq` is the last timer handle handed out (handles are positive, hence
truthy). `popupShowCount` is a ghost counter: the number of times
`showNextSongPopup` reached the statements that show the popup. -/
structure State where
  songs : List Song
  currentSongIndex : Int
  isPlaying : Bool
  isShuffle : Bool
  isRepeat : Bool
  playHistory : List Int
  nextSongPopupTimeout : Option Nat
  audio : Audio
  playButton : Icon
  songTitle : String
  songArtist : String
  coverArt : String
  bgImage : String
  progressWidth : ℚ
  currentTimeDisplay : String
  totalTimeDisplay : String
  popupCover : String
  popupTitle : String
  popupArtist : String
  popupVisible : Bool
  popupHidden : Bool
  timers : List Timer
  timerSeq : Nat
  popupShowCount : Nat
  deriving DecidableEq

/-- The state when the module has been evaluated (lines 34-42), on a fresh page. -/
def initialState : State where
  songs := []
  currentSongIndex := 0
  isPlaying := false
  isShuffle := false
  isRepeat := false
  playHistory := []
  nextSongPopupTimeout := none
  audio := { src := "", currentTime := 0, duration := none, playing := false }
  playButton := Icon.play
  songTitle := ""
  songArtist := ""
  coverArt := ""
  bgImage := ""
  progressWidth := 0
  currentTimeDisplay := "0:00"
  totalTimeDisplay := "0:00"
  popupCover := ""
  popupTitle := ""
  popupArtist := ""
  popupVisible := false
  popupHidden := true
  timers := []
  timerSeq := 0
  popupShowCount := 0

/-- The result of running a handler: it returned, or a `TypeError` escaped it.
Either way the globals hold the state reached. -/
inductive Outcome where
  | done (s : State)
  | threw (s : State)
  deriving DecidableEq

/-- The state the globals hold after the handler ran. -/
def Outcome.state : Outcome → State
  | Outcome.done s => s
  | Outcome.threw s => s

/-- Whether the handler returned normally. -/
def Outcome.returned : Outcome → Bool
  | Outcome.done _ => true
  | Outcome.threw _ => false

/-- Array read `songs[i]`: `undefined` (here `none`) outside `0 ≤ i < length`. -/
def songAt (songs : List Song) (i : Int) : Option Song :=
  if 0 ≤ i then songs[i.toNat]? else none

/-- `songs = [...songs, ...newSongs]` of `handleSongImport` (line 128). -/
def handleSongImport (newSongs : List Song) (s : State) : State :=
  { s with songs := s.songs ++ newSongs }

/-- `loadSong(index)`, lines 173-219. -/
def loadSong (defaultCoverArt : String) (index : Int) (s : State) : Outcome :=
  if s.songs.length = 0 then Outcome.done s
  else
    let s1 := { s with currentSongIndex := index }
    match songAt s1.songs index with
    | none => Outcome.threw s1
    | some song =>
      if !truthy song.url then
        if s1.isPlaying then
          Outcome.done { s1 with isPlaying := false, playButton := Icon.play }
        else Outcome.done s1
      else
        let cover := if truthy song.coverUrl then song.coverUrl.getD "" else defaultCoverArt
        let s2 := { s1 with
          audio := { s1.audio with src := song.url.getD "" }
          songTitle := song.title
          songArtist := song.artist
          coverArt := cover
          bgImage := cover
          progressWidth := 0
          currentTimeDisplay := "0:00" }
        if s2.isPlaying then
          Outcome.done { s2 with audio := { s2.audio with playing := true },
                                 playButton := Icon.pause }
        else Outcome.done s2

/-- `togglePlay()`, lines 246-258. -/
def togglePlay (s : State) : State :=
  if s.songs.length = 0 then s
  else
    let s1 :=
      if s.isPlaying then
        { s with audio := { s.audio with playing := false }, playButton := Icon.play }
      else
        { s with audio := { s.audio with playing := true }, playButton := Icon.pause }
    { s1 with isPlaying := !s1.isPlaying }

/-- The three statements after `loadSong(...)` in `playPrevious`, `playNext`
and the playlist click handler: `audioPlayer.play(); isPlaying = true;` and the
pause icon. They are skipped when `loadSong` threw. -/
def thenPlay : Outcome → Outcome
  | Outcome.threw s => Outcome.threw s
  | Outcome.done s =>
    Outcome.done { s with audio := { s.audio with playing := true },
                          isPlaying := true, playButton := Icon.pause }

/-- `playPrevious()`, lines 261-286. In the history branch the second `pop()`
cannot return `undefined` (the guard leaves an entry); the `none` case stands
for `loadSong(undefined)`, which throws. -/
def playPrevious (defaultCoverArt : String) (s : State) : Outcome :=
  if s.songs.length = 0 then Outcome.done s
  else if s.audio.currentTime > 3 then
    Outcome.done { s with audio := { s.audio with currentTime := 0 } }
  else if s.playHistory.length > 1 then
    let h1 := s.playHistory.dropLast
    let s1 := { s with playHistory := h1.dropLast }
    match h1.getLast? with
    | none => Outcome.threw s1
    | some prevIndex => thenPlay (loadSong defaultCoverArt prevIndex s1)
  else
    let prevIndex := s.currentSongIndex - 1
    let prevIndex := if prevIndex < 0 then (s.songs.length : Int) - 1 else prevIndex
    thenPlay (loadSong defaultCoverArt prevIndex s)

/-- `playNext()`, lines 289-305; `r` is what `getRandomIndex` returns if called. -/
def playNext (defaultCoverArt : String) (r : Int) (s : State) : Outcome :=
  if s.songs.length = 0 then Outcome.done s
  else
    let s1 := { s with playHistory := s.playHistory ++ [s.currentSongIndex] }
    let nextIndex :=
      if s1.isShuffle then r
      else Int.tmod (s1.currentSongIndex + 1) (s1.songs.length : Int)
    thenPlay (loadSong defaultCoverArt nextIndex s1)

/-- `toggleShuffle()`, lines 308-311. -/
def toggleShuffle (s : State) : State :=
  { s with isShuffle := !s.isShuffle }

/-- `toggleRepeat()`, lines 314-317. -/
def toggleRepeat (s : State) : State :=
  { s with isRepeat := !s.isRepeat }

/-- The click handler of a playlist item, lines 552-558. -/
def playlistItemClick (defaultCoverArt : String) (index : Int) (s : State) : Outcome :=
  thenPlay (loadSong defaultCoverArt index s)

/-- `setTimeout(callback, delay)`: a fresh positive handle, the timer pending. -/
def setTimeout (callback : Callback) (delay : Nat) (s : State) : State × Nat :=
  let id := s.timerSeq + 1
  ({ s with timerSeq := id, timers := s.timers ++ [⟨id, delay, callback⟩] }, id)

/-- `clearTimeout(id)`: the timer with that handle is no longer pending. -/
def clearTimeout (id : Nat) (s : State) : State :=
  { s with timers := s.timers.filter (fun t => t.id != id) }

/-- `showNextSongPopup()`, lines 334-361; `r` is what `getRandomIndex` returns
if called. -/
def showNextSongPopup (defaultCoverArt : String) (r : Int) (s : State) : State :=
  if s.songs.length ≤ 1 then s
  else
    let nextIndex :=
      if s.isShuffle then r
      else Int.tmod (s.currentSongIndex + 1) (s.songs.length : Int)
    match songAt s.songs nextIndex with
    | none => s
    | some nextSong =>
      let s1 := { s with
        popupCover := if truthy nextSong.coverUrl then nextSong.coverUrl.getD ""
                      else defaultCoverArt
        popupTitle := nextSong.title
        popupArtist := nextSong.artist
        popupHidden := false
        popupVisible := true
        popupShowCount := s.popupShowCount + 1 }
      (setTimeout Callback.fadePopup 5000 s1).1

/-- What `updateProgress` takes from outside `app.js`: `formatTime` of
`player-utils.js`, and the arithmetic of JavaScript numbers: `sub a b` is the
double `a - b`, `div a b` the double `a / b`, `mul a b` the double `a * b`
(each the exact result rounded to the nearest double). -/
structure Numerics where
  formatTime : ℚ → String
  sub : ℚ → ℚ → ℚ
  div : ℚ → ℚ → ℚ
  mul : ℚ → ℚ → ℚ

/-- Numerics whose operations are exact. Double arithmetic returns the exact
result whenever that result is a double, which is the case at every input
this instance is evaluated on below. Its `formatTime` always prints "0:00";
only the two time displays see it. -/
def sampleNumerics : Numerics where
  formatTime := fun _ => "0:00"
  sub := fun a b => a - b
  div := fun a b => a / b
  mul := fun a b => a * b

/-- `updateProgress()`, lines 364-393, the `timeupdate` listener. -/
def updateProgress (num : Numerics) (s : State) : State :=
  let currentTime := s.audio.currentTime
  match s.audio.duration with
  | none => s
  | some duration =>
    if duration = 0 then s
    else
      let s1 := { s with
        progressWidth := num.mul (num.div currentTime duration) 100
        currentTimeDisplay := num.formatTime currentTime
        totalTimeDisplay := num.formatTime duration }
      let timeRemaining := num.sub duration currentTime
      let s2 :=
        if timeRemaining ≤ 10 ∧ timeRemaining > 9.5 ∧ s1.nextSongPopupTimeout.isNone
            ∧ s1.songs.length > 1 then
          let (s', id) := setTimeout Callback.showPopup 100 s1
          { s' with nextSongPopupTimeout := some id }
        else s1
      if currentTime < 1 then
        match s2.nextSongPopupTimeout with
        | some id => { clearTimeout id s2 with nextSongPopupTimeout := none }
        | none => s2
      else s2

/-- Running the callback of an expired timer. -/
def runCallback (defaultCoverArt : String) (r : Int) (s : State) : Callback → State
  | Callback.showPopup =>
    { showNextSongPopup defaultCoverArt r s with nextSongPopupTimeout := none }
  | Callback.fadePopup =>
    (setTimeout Callback.hidePopup 300 { s with popupVisible := false }).1
  | Callback.hidePopup => { s with popupHidden := true }

/-- Expiry of the pending timer with handle `id`: it stops being pending and its
callback runs. Nothing happens when no such timer is pending. -/
def timerFire (defaultCoverArt : String) (r : Int) (id : Nat) (s : State) : State :=
  match s.timers.find? (fun t => t.id == id) with
  | none => s
  | some t => runCallback defaultCoverArt r (clearTimeout id s) t.callback

/-- The platform moves the playback position and learns the duration. -/
def audioAdvance (currentTime : ℚ) (duration : Option ℚ) (s : State) : State :=
  { s with audio := { s.audio with currentTime := currentTime, duration := duration } }

/-- Pressing "next" once per element of `rs` (the values `getRandomIndex` would
return), in a row. -/
def playNextAll (defaultCoverArt : String) : List Int → State → State
  | [], s => s
  | r :: rs, s => playNextAll defaultCoverArt rs (playNext defaultCoverArt r s).state

/-- The values `currentSongIndex` takes after each press of `playNextAll`. -/
def visitedIndices (defaultCoverArt : String) : List Int → State → List Int
  | [], _ => []
  | r :: rs, s =>
    (playNext defaultCoverArt r s).state.currentSongIndex ::
      visitedIndices defaultCoverArt rs (playNext defaultCoverArt r s).state

/-- A song as the import builds it from a file without tags: the blob URL, the
file name as title, no cover. -/
def importedSong (name : String) : Song where
  url := some ("blob:" ++ name)
  title := name
  artist := "Unknown Artist"
  coverUrl := none
  hasEmbeddedCover := false

/-- The state after importing three files into the initial state. -/
def threeSongs : State :=
  handleSongImport [importedSong "a", importedSong "b", importedSong "c"] initialState

/-- What can happen to the player: a handler runs (on a user gesture, an audio
event or a timer expiry) or the platform moves the playback position. -/
inductive Action where
  | importSongs (newSongs : List Song)
  | loadSong (index : Int)
  | playlistItemClick (index : Int)
  | playNext (r : Int)
  | playPrevious
  | togglePlay
  | toggleShuffle
  | toggleRepeat
  | audioAdvance (currentTime : ℚ) (duration : Option ℚ)
  | updateProgress
  | timerFire (r : Int) (id : Nat)

/-- The state the globals hold after the action. -/
def step (defaultCoverArt : String) (num : Numerics) : Action → State → State
  | Action.importSongs newSongs, s => handleSongImport newSongs s
  | Action.loadSong index, s => (loadSong defaultCoverArt index s).state
  | Action.playlistItemClick index, s => (playlistItemClick defaultCoverArt index s).state
  | Action.playNext r, s => (playNext defaultCoverArt r s).state
  | Action.playPrevious, s => (playPrevious defaultCoverArt s).state
  | Action.togglePlay, s => togglePlay s
  | Action.toggleShuffle, s => toggleShuffle s
  | Action.toggleRepeat, s => toggleRepeat s
  | Action.audioAdvance currentTime duration, s => audioAdvance currentTime duration s
  | Action.updateProgress, s => updateProgress num s
  | Action.timerFire r id, s => timerFire defaultCoverArt r id s

/-- The actions considered in a state: `loadSong` is only called on a playlist
position (`startPlayer`, the playlist click handler), and `getRandomIndex(c, n)`,
which `playNext` calls when shuffle is on, returns a value in `[0, n)`. -/
def Action.admissible : Action → State → Prop
  | Action.loadSong index, s => 0 ≤ index ∧ index < (s.songs.length : Int)
  | Action.playlistItemClick index, s => 0 ≤ index ∧ index < (s.songs.length : Int)
  | Action.playNext r, s =>
    s.isShuffle = true → s.songs ≠ [] → 0 ≤ r ∧ r < (s.songs.length : Int)
  | _, _ => True

/-- The states reachable from the initial state by admissible actions. -/
inductive Reachable (defaultCoverArt : String) (num : Numerics) : State → Prop
  | init : Reachable defaultCoverArt num initialState
  | step (a : Action) (s : State) :
      Reachable defaultCoverArt num s → a.admissible s →
      Reachable defaultCoverArt num (step defaultCoverArt num a s)

/-- The index invariant in its inductive form: the current index is 0 or a
playlist position, and every history entry is a playlist position. -/
def IndexInv (s : State) : Prop :=
  0 ≤ s.currentSongIndex
    ∧ (s.currentSongIndex < (s.songs.length : Int) ∨ s.currentSongIndex = 0)
    ∧ ∀ v ∈ s.playHistory, 0 ≤ v ∧ v < (s.songs.length : Int)

/-- Running a list of actions, first to last. -/
def run (defaultCoverArt : String) (num : Numerics) :
    List Action → State → State
  | [], s => s
  | a :: as, s => run defaultCoverArt num as (step defaultCoverArt num a s)

/-- A run of `timeupdate` events: for each pair the audio element reports the
position `p.1` and the duration `p.2`, and `updateProgress` runs. -/
def progressEvents (num : Numerics) : List (ℚ × ℚ) → State → State
  | [], s => s
  | p :: ps, s =>
    progressEvents num ps (updateProgress num (audioAdvance p.1 (some p.2) s))

/-- A pending timer that will show the popup (scheduled by `updateProgress`). -/
def isPopupTimer (t : Timer) : Bool :=
  t.callback == Callback.showPopup

/-- The handles of the pending popup timers. -/
def pendingPopups (s : State) : List Nat :=
  (s.timers.filter isPopupTimer).map Timer.id

/-- Pending handles are distinct and were handed out by `setTimeout`. -/
def TimersFresh (s : State) : Prop :=
  (s.timers.map Timer.id).Nodup ∧ ∀ t ∈ s.timers, t.id ≤ s.timerSeq

/-- Well-formed timers: fresh handles, and the pending popup timers are exactly
the one held in `nextSongPopupTimeout`. -/
def TimersWf (s : State) : Prop :=
  TimersFresh s ∧ pendingPopups s = s.nextSongPopupTimeout.toList

/-- First block of `updateProgress` (lines 368-374): the progress bar and the
two time displays. -/
def showProgress (num : Numerics) (duration : ℚ) (s : State) : State :=
  { s with
    progressWidth := num.mul (num.div s.audio.currentTime duration) 100
    currentTimeDisplay := num.formatTime s.audio.currentTime
    totalTimeDisplay := num.formatTime duration }

/-- Body of the second block of `updateProgress` (lines 379-382): the popup is
scheduled and its handle kept. -/
def schedulePopup (s : State) : State :=
  { (setTimeout Callback.showPopup 100 s).1 with
    nextSongPopupTimeout := some (setTimeout Callback.showPopup 100 s).2 }

/-- Body of the third block of `updateProgress` (lines 388-389): the pending
popup is cancelled and the handle dropped. -/
def cancelPopup (id : Nat) (s : State) : State :=
  { clearTimeout id s with nextSongPopupTimeout := none }

/-- The guard of the second block of `updateProgress` (line 378), on the
`timeRemaining` of line 377. -/
def popupDue (num : Numerics) (duration : ℚ) (s : State) : Prop :=
  num.sub duration s.audio.currentTime ≤ 10 ∧ num.sub duration s.audio.currentTime > 9.5
    ∧ s.nextSongPopupTimeout.isNone ∧ s.songs.length > 1

instance (num : Numerics) (duration : ℚ) (s : State) :
    Decidable (popupDue num duration s) := by
  unfold popupDue
  infer_instance

/-- The states `s` and `t` agree on the playlist, the index, the shuffle flag,
the timers, the popup handle and the count of popups shown. -/
def SamePopupState (s t : State) : Prop :=
  t.songs = s.songs ∧ t.currentSongIndex = s.currentSongIndex ∧ t.isShuffle = s.isShuffle
    ∧ t.timers = s.timers ∧ t.timerSeq = s.timerSeq
    ∧ t.nextSongPopupTimeout = s.nextSongPopupTimeout
    ∧ t.popupShowCount = s.popupShowCount

/-- A short session: three files are imported, then "next" is pressed twice. -/
def sampleSession : List Action :=
  [Action.importSongs [importedSong "a", importedSong "b", importedSong "c"],
   Action.playNext 0, Action.playNext 0]

/-! ## Frame lemmas for `loadSong` and `thenPlay` -/

theorem songAt_isSome_iff (songs : List Song) (i : Int) :
    (songAt songs i).isSome = true ↔ 0 ≤ i ∧ i < (songs.length : Int) := by
  unfold songAt
  split
  · rw [Option.isSome_iff_exists]
    constructor
    · rintro ⟨a, ha⟩
      have := (List.getElem?_eq_some_iff.mp ha).1
      omega
    · rintro ⟨_, h2⟩
      have hlt : i.toNat < songs.length := by omega
      exact ⟨songs[i.toNat], List.getElem?_eq_getElem hlt⟩
  · simp; omega

theorem songAt_valid (songs : List Song) (i : Int) (h0 : 0 ≤ i)
    (h1 : i < (songs.length : Int)) : ∃ song, songAt songs i = some song := by
  have := (songAt_isSome_iff songs i).mpr ⟨h0, h1⟩
  exact Option.isSome_iff_exists.mp this

theorem thenPlay_currentSongIndex (o : Outcome) :
    (thenPlay o).state.currentSongIndex = o.state.currentSongIndex := by
  cases o <;> rfl

theorem thenPlay_playHistory (o : Outcome) :
    (thenPlay o).state.playHistory = o.state.playHistory := by
  cases o <;> rfl

theorem thenPlay_songs (o : Outcome) : (thenPlay o).state.songs = o.state.songs := by
  cases o <;> rfl

theorem thenPlay_isShuffle (o : Outcome) :
    (thenPlay o).state.isShuffle = o.state.isShuffle := by
  cases o <;> rfl

theorem thenPlay_returned (o : Outcome) : (thenPlay o).returned = o.returned := by
  cases o <;> rfl

theorem loadSong_currentSongIndex (d : String) (i : Int) (s : State)
    (hne : s.songs ≠ []) : (loadSong d i s).state.currentSongIndex = i := by
  have hlen : ¬ s.songs.length = 0 := by simpa using hne
  unfold loadSong
  simp only [hlen, if_false]
  split
  · rfl
  · split
    · split <;> rfl
    · split <;> rfl

theorem loadSong_playHistory (d : String) (i : Int) (s : State) :
    (loadSong d i s).state.playHistory = s.playHistory := by
  unfold loadSong
  dsimp only
  repeat' split
  all_goals rfl

theorem loadSong_songs (d : String) (i : Int) (s : State) :
    (loadSong d i s).state.songs = s.songs := by
  unfold loadSong
  dsimp only
  repeat' split
  all_goals rfl

theorem loadSong_isShuffle (d : String) (i : Int) (s : State) :
    (loadSong d i s).state.isShuffle = s.isShuffle := by
  unfold loadSong
  dsimp only
  repeat' split
  all_goals rfl

theorem thenPlay_currentTime (o : Outcome) :
    (thenPlay o).state.audio.currentTime = o.state.audio.currentTime := by
  cases o <;> rfl

theorem loadSong_currentTime (d : String) (i : Int) (s : State) :
    (loadSong d i s).state.audio.currentTime = s.audio.currentTime := by
  unfold loadSong
  dsimp only
  repeat' split
  all_goals rfl

theorem loadSong_returned (d : String) (i : Int) (s : State)
    (h0 : 0 ≤ i) (h1 : i < (s.songs.length : Int)) :
    (loadSong d i s).returned = true := by
  obtain ⟨song, hsong⟩ := songAt_valid s.songs i h0 h1
  unfold loadSong
  split
  · rfl
  · simp only [hsong]
    split
    · split <;> rfl
    · split <;> rfl

/-! ## Sequential `playNext` -/

theorem playNext_songs (d : String) (r : Int) (s : State) :
    (playNext d r s).state.songs = s.songs := by
  unfold playNext
  split
  · rfl
  · simp only [thenPlay_songs, loadSong_songs]

theorem playNext_isShuffle (d : String) (r : Int) (s : State) :
    (playNext d r s).state.isShuffle = s.isShuffle := by
  unfold playNext
  split
  · rfl
  · simp only [thenPlay_isShuffle, loadSong_isShuffle]

theorem playNext_index_of_sequential (d : String) (r : Int) (s : State)
    (hne : s.songs ≠ []) (hsh : s.isShuffle = false) :
    (playNext d r s).state.currentSongIndex
      = Int.tmod (s.currentSongIndex + 1) (s.songs.length : Int) := by
  have hlen : ¬ s.songs.length = 0 := by simpa using hne
  unfold playNext
  simp only [hlen, if_false, thenPlay_currentSongIndex]
  rw [loadSong_currentSongIndex _ _ _ (by simpa using hne)]
  simp [hsh]

/-- C1: on a non-empty playlist, from a valid current index `c` and with
shuffle off, `playNext` returns normally and leaves `currentSongIndex` equal to
`(c + 1) mod count`. -/
theorem playNext_sequential (d : String) (r : Int) (s : State)
    (hne : s.songs ≠ []) (h0 : 0 ≤ s.currentSongIndex)
    (h1 : s.currentSongIndex < (s.songs.length : Int)) (hsh : s.isShuffle = false) :
    (playNext d r s).state.currentSongIndex
        = (s.currentSongIndex + 1) % (s.songs.length : Int)
      ∧ (playNext d r s).returned = true := by
  have hlen : ¬ s.songs.length = 0 := by simpa using hne
  have hpos : (0 : Int) < (s.songs.length : Int) := by omega
  constructor
  · rw [playNext_index_of_sequential d r s hne hsh]
    exact Int.tmod_eq_emod (by omega) (by omega)
  · unfold playNext
    simp only [hlen, if_false, thenPlay_returned, hsh]
    apply loadSong_returned
    · exact Int.tmod_nonneg _ (by omega)
    · exact Int.tmod_lt_of_pos _ hpos

/-- Witness of C1: three songs, current index 2, the wrap-around case. -/
theorem playNext_sequential_witness :
    (playNext "cover.png" 0 { threeSongs with currentSongIndex := 2 }).state.currentSongIndex
        = (2 + 1) % 3
      ∧ (playNext "cover.png" 0 { threeSongs with currentSongIndex := 2 }).returned = true :=
  playNext_sequential "cover.png" 0 { threeSongs with currentSongIndex := 2 }
    (by decide) (by decide) (by decide) (by decide)

theorem playNext_index_nat (d : String) (r : Int) (s : State) (cn : Nat)
    (hne : s.songs ≠ []) (hc : s.currentSongIndex = (cn : Int))
    (hsh : s.isShuffle = false) :
    (playNext d r s).state.currentSongIndex = (((cn + 1) % s.songs.length : Nat) : Int) := by
  rw [playNext_index_of_sequential d r s hne hsh, hc,
    Int.tmod_eq_emod (by omega) (by omega)]
  push_cast
  rfl

theorem visitedIndices_sequential (d : String) (rs : List Int) :
    ∀ (s : State) (cn : Nat), s.songs ≠ [] → s.currentSongIndex = (cn : Int) →
      cn < s.songs.length → s.isShuffle = false →
      visitedIndices d rs s
          = (List.range rs.length).map
              (fun k => (((cn + 1 + k) % s.songs.length : Nat) : Int))
        ∧ (playNextAll d rs s).currentSongIndex
          = (((cn + rs.length) % s.songs.length : Nat) : Int) := by
  induction rs with
  | nil =>
    intro s cn _ hc hlt _
    refine ⟨rfl, ?_⟩
    show s.currentSongIndex = _
    rw [hc, List.length_nil, Nat.add_zero, Nat.mod_eq_of_lt hlt]
  | cons r rs ih =>
    intro s cn hne hc hlt hsh
    have hidx := playNext_index_nat d r s cn hne hc hsh
    have hsongs := playNext_songs d r s
    have hshuf := playNext_isShuffle d r s
    obtain ⟨ih1, ih2⟩ := ih (playNext d r s).state ((cn + 1) % s.songs.length)
      (by rw [hsongs]; exact hne) (by rw [hidx])
      (by rw [hsongs]; exact Nat.mod_lt _ (by omega)) (by rw [hshuf]; exact hsh)
    rw [hsongs] at ih1 ih2
    constructor
    · simp only [visitedIndices, List.length_cons, List.range_succ_eq_map, List.map_cons,
        List.map_map, ih1, hidx]
      refine congrArg₂ _ rfl (List.map_congr_left ?_)
      intro k _
      simp only [Function.comp]
      congr 1
      rw [Nat.add_assoc ((cn + 1) % _), Nat.mod_add_mod]
      congr 1
      omega
    · simp only [playNextAll, List.length_cons, ih2]
      congr 1
      rw [Nat.mod_add_mod]
      congr 1
      omega

theorem shifted_range_nodup (a n : Nat) :
    ((List.range n).map (fun k => (((a + k) % n : Nat) : Int))).Nodup := by
  apply List.Nodup.map_on _ (List.nodup_range n)
  intro x hx y hy hxy
  rw [List.mem_range] at hx hy
  have h : (a + x) % n = (a + y) % n := by exact_mod_cast hxy
  have h2 : x ≡ y [MOD n] := Nat.ModEq.add_left_cancel' a h
  unfold Nat.ModEq at h2
  rwa [Nat.mod_eq_of_lt hx, Nat.mod_eq_of_lt hy] at h2

theorem shifted_range_mem (a n : Nat) (v : Int) (h0 : 0 ≤ v) (h1 : v < (n : Int)) :
    v ∈ (List.range n).map (fun k => (((a + k) % n : Nat) : Int)) := by
  have hn : 0 < n := by omega
  rw [List.mem_map]
  refine ⟨(v.toNat + (n - a % n)) % n, List.mem_range.mpr (Nat.mod_lt _ hn), ?_⟩
  have ha : a % n < n := Nat.mod_lt _ hn
  have hv : v.toNat < n := by omega
  have key : (a + (v.toNat + (n - a % n)) % n) % n = v.toNat := by
    rw [Nat.add_mod_mod]
    have : a + (v.toNat + (n - a % n)) = v.toNat + (a / n + 1) * n := by
      have := Nat.div_add_mod a n
      have h3 : a = n * (a / n) + a % n := by omega
      rw [Nat.add_mul, Nat.one_mul, Nat.mul_comm (a / n) n]
      omega
    rw [this, Nat.add_mul_mod_self_right, Nat.mod_eq_of_lt hv]
  rw [key]
  omega

/-- C2: on a playlist of `count ≥ 1` songs, from a valid index `c` and with
shuffle off, `count` presses of "next" in a row make `currentSongIndex` take
every value of `[0, count)` exactly once, and end on `c` again. -/
theorem playNext_cycle (d : String) (rs : List Int) (s : State)
    (hne : s.songs ≠ []) (h0 : 0 ≤ s.currentSongIndex)
    (h1 : s.currentSongIndex < (s.songs.length : Int)) (hsh : s.isShuffle = false)
    (hlen : rs.length = s.songs.length) :
    (visitedIndices d rs s).length = s.songs.length
      ∧ (∀ v : Int, 0 ≤ v → v < (s.songs.length : Int) →
          (visitedIndices d rs s).count v = 1)
      ∧ (playNextAll d rs s).currentSongIndex = s.currentSongIndex := by
  obtain ⟨hv, hend⟩ := visitedIndices_sequential d rs s s.currentSongIndex.toNat hne
    (by omega) (by omega) hsh
  rw [hlen] at hv hend
  refine ⟨?_, ?_, ?_⟩
  · rw [hv]; simp
  · intro v hv0 hv1
    rw [hv]
    exact List.count_eq_one_of_mem (shifted_range_nodup _ _)
      (shifted_range_mem _ _ v hv0 hv1)
  · rw [hend, Nat.add_mod_right, Nat.mod_eq_of_lt (by omega)]
    omega

/-- Witness of C2: three songs, starting at index 1. -/
theorem playNext_cycle_witness :
    (visitedIndices "cover.png" [0, 0, 0] { threeSongs with currentSongIndex := 1 }).length = 3
      ∧ (∀ v : Int, 0 ≤ v → v < 3 →
          (visitedIndices "cover.png" [0, 0, 0]
            { threeSongs with currentSongIndex := 1 }).count v = 1)
      ∧ (playNextAll "cover.png" [0, 0, 0]
            { threeSongs with currentSongIndex := 1 }).currentSongIndex = 1 :=
  playNext_cycle "cover.png" [0, 0, 0] { threeSongs with currentSongIndex := 1 }
    (by decide) (by decide) (by decide) (by decide) (by decide)

/-! ## `playPrevious` -/

theorem two_last (h : List Int) (hlen : 1 < h.length) :
    ∃ prev cur, h.dropLast.getLast? = some prev ∧ h = h.dropLast.dropLast ++ [prev, cur] := by
  have hne : h ≠ [] := by intro e; rw [e] at hlen; simp at hlen
  have hne1 : h.dropLast ≠ [] := by
    intro e
    have := congrArg List.length e
    rw [List.length_dropLast] at this
    simp at this
    omega
  refine ⟨h.dropLast.getLast hne1, h.getLast hne, List.getLast?_eq_getLast _ hne1, ?_⟩
  have e1 := List.dropLast_append_getLast hne
  have e2 := List.dropLast_append_getLast hne1
  calc h = h.dropLast ++ [h.getLast hne] := e1.symm
    _ = (h.dropLast.dropLast ++ [h.dropLast.getLast hne1]) ++ [h.getLast hne] := by rw [e2]
    _ = _ := by simp

theorem playPrevious_history_branch (d : String) (s : State) (hne : s.songs ≠ [])
    (ht : ¬ s.audio.currentTime > 3) (hlen : 1 < s.playHistory.length)
    (prev : Int) (hprev : s.playHistory.dropLast.getLast? = some prev) :
    playPrevious d s
      = thenPlay (loadSong d prev { s with playHistory := s.playHistory.dropLast.dropLast }) := by
  have hl : ¬ s.songs.length = 0 := by simpa using hne
  unfold playPrevious
  simp only [hl, if_false, ht, gt_iff_lt, hlen, if_true, hprev]

theorem playPrevious_decrement_branch (d : String) (s : State) (hne : s.songs ≠ [])
    (ht : ¬ s.audio.currentTime > 3) (hlen : ¬ 1 < s.playHistory.length) :
    playPrevious d s
      = thenPlay (loadSong d
          (if s.currentSongIndex - 1 < 0 then (s.songs.length : Int) - 1
            else s.currentSongIndex - 1) s) := by
  have hl : ¬ s.songs.length = 0 := by simpa using hne
  unfold playPrevious
  simp only [hl, if_false, ht, gt_iff_lt, hlen]

/-- C3: on a non-empty playlist, when `playPrevious` navigates (the position is
not past 3 seconds): with at least two history entries it removes exactly the
two topmost ones and sets `currentSongIndex` to the second one removed (and
returns normally when that entry is a playlist position); otherwise it leaves
the history alone and, from a valid index `c`, loads `(c - 1) mod count`.
From history `[0, 1, 2]` two calls in a row give index 1, then index 0. -/
theorem playPrevious_navigation (d : String) (s : State) (hne : s.songs ≠ [])
    (ht : ¬ s.audio.currentTime > 3) :
    (2 ≤ s.playHistory.length →
        (∃ cur, s.playHistory
            = (playPrevious d s).state.playHistory
                ++ [(playPrevious d s).state.currentSongIndex, cur])
        ∧ (0 ≤ (playPrevious d s).state.currentSongIndex →
            (playPrevious d s).state.currentSongIndex < (s.songs.length : Int) →
            (playPrevious d s).returned = true))
      ∧ (s.playHistory.length < 2 →
        (playPrevious d s).state.playHistory = s.playHistory
        ∧ (0 ≤ s.currentSongIndex → s.currentSongIndex < (s.songs.length : Int) →
            (playPrevious d s).state.currentSongIndex
                = (s.currentSongIndex - 1) % (s.songs.length : Int)
              ∧ (playPrevious d s).returned = true))
      ∧ (s.playHistory = [0, 1, 2] →
        (playPrevious d s).state.currentSongIndex = 1
        ∧ (playPrevious d (playPrevious d s).state).state.currentSongIndex = 0) := by
  have hl : ¬ s.songs.length = 0 := by simpa using hne
  have hpos : (0 : Int) < (s.songs.length : Int) := by omega
  refine ⟨?_, ?_, ?_⟩
  · intro hlen
    obtain ⟨prev, cur, hprev, hsplit⟩ := two_last s.playHistory (by omega)
    have hb := playPrevious_history_branch d s hne ht (by omega) prev hprev
    have hidx : (playPrevious d s).state.currentSongIndex = prev := by
      rw [hb, thenPlay_currentSongIndex, loadSong_currentSongIndex _ _ _ (by simpa using hne)]
    have hhist : (playPrevious d s).state.playHistory = s.playHistory.dropLast.dropLast := by
      rw [hb, thenPlay_playHistory, loadSong_playHistory]
    refine ⟨⟨cur, ?_⟩, ?_⟩
    · rw [hidx, hhist]; exact hsplit
    · intro h0 h1
      rw [hidx] at h0 h1
      rw [hb, thenPlay_returned]
      exact loadSong_returned _ _ _ h0 h1
  · intro hlen
    have hb := playPrevious_decrement_branch d s hne ht (by omega)
    refine ⟨?_, ?_⟩
    · rw [hb, thenPlay_playHistory, loadSong_playHistory]
    · intro h0 h1
      rw [hb, thenPlay_currentSongIndex, thenPlay_returned,
        loadSong_currentSongIndex _ _ _ hne]
      constructor
      · split
        · have hc : s.currentSongIndex = 0 := by omega
          rw [hc]
          have hm : (0 - 1 : Int) % (s.songs.length : Int) = (s.songs.length : Int) - 1 := by
            rw [← Int.add_emod_self]
            exact Int.emod_eq_of_lt (by omega) (by omega)
          rw [hm]
        · exact (Int.emod_eq_of_lt (by omega) (by omega)).symm
      · apply loadSong_returned
        · split <;> omega
        · split <;> omega
  · intro hh
    have hb := playPrevious_history_branch d s hne ht (by rw [hh]; decide) 1
      (by rw [hh]; rfl)
    have hidx : (playPrevious d s).state.currentSongIndex = 1 := by
      rw [hb, thenPlay_currentSongIndex, loadSong_currentSongIndex _ _ _ (by simpa using hne)]
    have hhist : (playPrevious d s).state.playHistory = [0] := by
      rw [hb, thenPlay_playHistory, loadSong_playHistory, hh]
      rfl
    have hsongs : (playPrevious d s).state.songs = s.songs := by
      rw [hb, thenPlay_songs, loadSong_songs]
    have htime : (playPrevious d s).state.audio.currentTime = s.audio.currentTime := by
      rw [hb, thenPlay_currentTime, loadSong_currentTime]
    refine ⟨hidx, ?_⟩
    rw [playPrevious_decrement_branch d _ (by rw [hsongs]; exact hne)
        (by rw [htime]; exact ht) (by rw [hhist]; decide),
      thenPlay_currentSongIndex,
      loadSong_currentSongIndex _ _ _ (by rw [hsongs]; exact hne), hidx]
    rfl

/-- Witness of C3: three songs, position 0. From history `[0, 1, 2]` two
calls give index 1, then index 0; with an empty history, from index 0, the call
wraps to index 2. -/
theorem playPrevious_navigation_witness :
    ((playPrevious "cover.png"
        { threeSongs with currentSongIndex := 2, playHistory := [0, 1, 2] }).state.currentSongIndex
        = 1
      ∧ (playPrevious "cover.png"
          (playPrevious "cover.png"
            { threeSongs with currentSongIndex := 2,
                              playHistory := [0, 1, 2] }).state).state.currentSongIndex
        = 0)
      ∧ ((playPrevious "cover.png" threeSongs).state.playHistory = []
        ∧ (playPrevious "cover.png" threeSongs).state.currentSongIndex = (0 - 1) % 3) :=
  ⟨(playPrevious_navigation "cover.png"
      { threeSongs with currentSongIndex := 2, playHistory := [0, 1, 2] }
      (by decide) (by decide)).2.2 rfl,
   ((playPrevious_navigation "cover.png" threeSongs (by decide) (by decide)).2.1
      (by decide)).1,
   (((playPrevious_navigation "cover.png" threeSongs (by decide) (by decide)).2.1
      (by decide)).2 (by decide) (by decide)).1⟩

/-- C4, as stated, fails: one second into the second of three songs (within 3
seconds of the start) `playPrevious` does not restart the track but moves to
index 0; five seconds in (outside the threshold) it does not navigate but
rewinds to 0 and keeps the index. -/
theorem playPrevious_restart_counterexample :
    (audioAdvance 1 (some 200) { threeSongs with currentSongIndex := 1 }).songs ≠ []
      ∧ (audioAdvance 1 (some 200) { threeSongs with currentSongIndex := 1 }).audio.currentTime
          ≤ 3
      ∧ (playPrevious "cover.png"
          (audioAdvance 1 (some 200)
            { threeSongs with currentSongIndex := 1 })).state.currentSongIndex = 0
      ∧ (playPrevious "cover.png"
          (audioAdvance 1 (some 200)
            { threeSongs with currentSongIndex := 1 })).state.audio.currentTime = 1
      ∧ (playPrevious "cover.png"
          (audioAdvance 5 (some 200)
            { threeSongs with currentSongIndex := 1 })).state.currentSongIndex = 1
      ∧ (playPrevious "cover.png"
          (audioAdvance 5 (some 200)
            { threeSongs with currentSongIndex := 1 })).state.audio.currentTime = 0 := by
  refine ⟨by decide, by decide, by decide, by decide, by decide, by decide⟩

/-- C4, amended: on a non-empty playlist `playPrevious` restarts the current
track (position set to 0, nothing else changed, so index and history stay)
exactly when the position is more than 3 seconds into the track; at 3 seconds
or less it navigates: it continues with `loadSong` on the entry beneath the top
of the history (two or more entries) or on the index before the current one,
wrapping to the last. -/
theorem playPrevious_restart (d : String) (s : State) (hne : s.songs ≠ []) :
    (s.audio.currentTime > 3 →
        playPrevious d s
          = Outcome.done { s with audio := { s.audio with currentTime := 0 } })
      ∧ (¬ s.audio.currentTime > 3 → 1 < s.playHistory.length →
          s.playHistory.dropLast.getLast?
            = some (playPrevious d s).state.currentSongIndex)
      ∧ (¬ s.audio.currentTime > 3 → ¬ 1 < s.playHistory.length →
          (playPrevious d s).state.currentSongIndex
            = if s.currentSongIndex - 1 < 0 then (s.songs.length : Int) - 1
              else s.currentSongIndex - 1) := by
  have hl : ¬ s.songs.length = 0 := by simpa using hne
  refine ⟨?_, ?_, ?_⟩
  · intro ht
    unfold playPrevious
    simp only [hl, if_false, ht, if_true]
  · intro ht hlen
    obtain ⟨prev, cur, hprev, _⟩ := two_last s.playHistory hlen
    rw [playPrevious_history_branch d s hne ht hlen prev hprev, thenPlay_currentSongIndex,
      loadSong_currentSongIndex _ _ _ (by simpa using hne), hprev]
  · intro ht hlen
    rw [playPrevious_decrement_branch d s hne ht hlen, thenPlay_currentSongIndex,
      loadSong_currentSongIndex _ _ _ hne]

/-- Witness of C4 amended: five seconds into the second of three songs the
track is rewound; one second in, with history `[0, 2]`, the entry beneath the
top of the history is loaded. -/
theorem playPrevious_restart_witness :
    playPrevious "cover.png" (audioAdvance 5 (some 200) { threeSongs with currentSongIndex := 1 })
        = Outcome.done (audioAdvance 0 (some 200) { threeSongs with currentSongIndex := 1 })
      ∧ some (playPrevious "cover.png"
          (audioAdvance 1 (some 200)
            { threeSongs with currentSongIndex := 1,
                              playHistory := [0, 2] })).state.currentSongIndex
        = some 0 :=
  ⟨(playPrevious_restart "cover.png"
      (audioAdvance 5 (some 200) { threeSongs with currentSongIndex := 1 }) (by decide)).1
      (by decide),
   ((playPrevious_restart "cover.png"
      (audioAdvance 1 (some 200)
        { threeSongs with currentSongIndex := 1, playHistory := [0, 2] }) (by decide)).2.1
      (by decide) (by decide)).symm⟩

/-! ## History bookkeeping -/

theorem playPrevious_history_prefix (d : String) (s : State) :
    (playPrevious d s).state.playHistory <+: s.playHistory := by
  by_cases hne : s.songs = []
  · have hl : s.songs.length = 0 := by simp [hne]
    unfold playPrevious
    simp only [hl, if_true]
    exact List.prefix_refl _
  · by_cases ht : s.audio.currentTime > 3
    · have hl : ¬ s.songs.length = 0 := by simpa using hne
      unfold playPrevious
      simp only [hl, if_false, ht, if_true]
      exact List.prefix_refl _
    · by_cases hlen : 1 < s.playHistory.length
      · obtain ⟨prev, cur, hprev, _⟩ := two_last s.playHistory hlen
        rw [playPrevious_history_branch d s hne ht hlen prev hprev, thenPlay_playHistory,
          loadSong_playHistory]
        exact (List.dropLast_prefix _).trans (List.dropLast_prefix _)
      · rw [playPrevious_decrement_branch d s hne ht hlen, thenPlay_playHistory,
          loadSong_playHistory]

/-- C5: on a non-empty playlist `playNext` appends exactly one entry to
`playHistory`, the index being left; `playPrevious` never adds an entry: the
history it leaves is a prefix of the history it found. -/
theorem history_push_on_next_only (d : String) (r : Int) (s : State) :
    (s.songs ≠ [] →
        (playNext d r s).state.playHistory = s.playHistory ++ [s.currentSongIndex])
      ∧ (playPrevious d s).state.playHistory <+: s.playHistory := by
  refine ⟨?_, playPrevious_history_prefix d s⟩
  intro hne
  have hl : ¬ s.songs.length = 0 := by simpa using hne
  unfold playNext
  simp only [hl, if_false, thenPlay_playHistory, loadSong_playHistory]

/-- Witness of C5: shuffle on, the random index being 0, from index 2 with
history `[0, 1]`. -/
theorem history_push_on_next_only_witness :
    (playNext "cover.png" 0
        { threeSongs with currentSongIndex := 2, isShuffle := true,
                          playHistory := [0, 1] }).state.playHistory
      = [0, 1] ++ [2] :=
  (history_push_on_next_only "cover.png" 0
    { threeSongs with currentSongIndex := 2, isShuffle := true, playHistory := [0, 1] }).1
    (by decide)

/-! ## Empty playlist -/

/-- C7: on an empty playlist `loadSong`, `togglePlay`, `playPrevious` and
`playNext` all return normally and leave the whole state as it was (so the
index, the three flags and the history; `playNext` pushes nothing). -/
theorem empty_playlist_noop (d : String) (i r : Int) (s : State) (hempty : s.songs = []) :
    loadSong d i s = Outcome.done s
      ∧ togglePlay s = s
      ∧ playPrevious d s = Outcome.done s
      ∧ playNext d r s = Outcome.done s := by
  have hl : s.songs.length = 0 := by simp [hempty]
  refine ⟨?_, ?_, ?_, ?_⟩
  · unfold loadSong; simp only [hl, if_true]
  · unfold togglePlay; simp only [hl, if_true]
  · unfold playPrevious; simp only [hl, if_true]
  · unfold playNext; simp only [hl, if_true]

/-- Witness of C7: the initial state, whose playlist is empty. -/
theorem empty_playlist_noop_witness :
    loadSong "cover.png" 0 initialState = Outcome.done initialState
      ∧ togglePlay initialState = initialState
      ∧ playPrevious "cover.png" initialState = Outcome.done initialState
      ∧ playNext "cover.png" 0 initialState = Outcome.done initialState :=
  empty_playlist_noop "cover.png" 0 0 initialState rfl

/-! ## `loadSong` -/

/-- What `loadSong i` does on an index that holds a song: it returns normally,
sets `currentSongIndex` to `i` and leaves `isShuffle`, `isRepeat` and
`playHistory` alone. If the song has a URL it also resets the displayed
progress (bar at 0, elapsed time "0:00"), points the audio element at the URL
and leaves `isPlaying` as it was; behind the guard of lines 180-187 (no URL)
`isPlaying` is false afterwards and the displayed progress is untouched. -/
theorem loadSong_effect (d : String) (i : Int) (s : State) (song : Song)
    (hsong : songAt s.songs i = some song) :
    (loadSong d i s).returned = true
      ∧ (loadSong d i s).state.currentSongIndex = i
      ∧ (loadSong d i s).state.isShuffle = s.isShuffle
      ∧ (loadSong d i s).state.isRepeat = s.isRepeat
      ∧ (loadSong d i s).state.playHistory = s.playHistory
      ∧ (truthy song.url = true →
          (loadSong d i s).state.progressWidth = 0
          ∧ (loadSong d i s).state.currentTimeDisplay = "0:00"
          ∧ (loadSong d i s).state.audio.src = song.url.getD ""
          ∧ (loadSong d i s).state.isPlaying = s.isPlaying)
      ∧ (truthy song.url = false →
          (loadSong d i s).state.isPlaying = false
          ∧ (loadSong d i s).state.progressWidth = s.progressWidth
          ∧ (loadSong d i s).state.currentTimeDisplay = s.currentTimeDisplay) := by
  have hvalid := (songAt_isSome_iff s.songs i).mp (by rw [hsong]; rfl)
  have hl : ¬ s.songs.length = 0 := by omega
  have hne : s.songs ≠ [] := by simpa using hl
  refine ⟨loadSong_returned d i s hvalid.1 hvalid.2, loadSong_currentSongIndex d i s hne,
    loadSong_isShuffle d i s, ?_, loadSong_playHistory d i s, ?_, ?_⟩
  · unfold loadSong
    dsimp only
    repeat' split
    all_goals rfl
  · intro hurl
    unfold loadSong
    simp only [hl, if_false, hsong, hurl, Bool.not_true]
    cases hp : s.isPlaying <;> simp [Outcome.state]
  · intro hurl
    unfold loadSong
    simp only [hl, if_false, hsong, hurl, Bool.not_false, if_true]
    cases hp : s.isPlaying <;> simp [Outcome.state]

theorem loadSong_totalTimeDisplay (d : String) (i : Int) (s : State) :
    (loadSong d i s).state.totalTimeDisplay = s.totalTimeDisplay := by
  unfold loadSong
  dsimp only
  repeat' split
  all_goals rfl

/-- C10 at a failing input: three songs, the first one playing 1:40 into its
3:20 (bar at 50 %). `loadSong(1)` returns normally, sets the index to 1, keeps
`isPlaying`, `isShuffle`, `isRepeat` and the history, resets the bar to 0 and
the elapsed time to "0:00", but the displayed track duration still reads
"3:20": `loadSong` never writes it. -/
theorem loadSong_keeps_track_duration :
    (loadSong "cover.png" 1
        { threeSongs with isPlaying := true, progressWidth := 50,
                          currentTimeDisplay := "1:40",
                          totalTimeDisplay := "3:20" }).returned = true
      ∧ (loadSong "cover.png" 1
        { threeSongs with isPlaying := true, progressWidth := 50,
                          currentTimeDisplay := "1:40",
                          totalTimeDisplay := "3:20" }).state.currentSongIndex = 1
      ∧ (loadSong "cover.png" 1
        { threeSongs with isPlaying := true, progressWidth := 50,
                          currentTimeDisplay := "1:40",
                          totalTimeDisplay := "3:20" }).state.isPlaying = true
      ∧ (loadSong "cover.png" 1
        { threeSongs with isPlaying := true, progressWidth := 50,
                          currentTimeDisplay := "1:40",
                          totalTimeDisplay := "3:20" }).state.playHistory = []
      ∧ (loadSong "cover.png" 1
        { threeSongs with isPlaying := true, progressWidth := 50,
                          currentTimeDisplay := "1:40",
                          totalTimeDisplay := "3:20" }).state.progressWidth = 0
      ∧ (loadSong "cover.png" 1
        { threeSongs with isPlaying := true, progressWidth := 50,
                          currentTimeDisplay := "1:40",
                          totalTimeDisplay := "3:20" }).state.currentTimeDisplay = "0:00"
      ∧ (loadSong "cover.png" 1
        { threeSongs with isPlaying := true, progressWidth := 50,
                          currentTimeDisplay := "1:40",
                          totalTimeDisplay := "3:20" }).state.totalTimeDisplay = "3:20" := by
  refine ⟨by decide, by decide, by decide, by decide, by decide, by decide, by decide⟩

/-! ## The valid-index invariant -/

theorem showNextSongPopup_frame (d : String) (r : Int) (s : State) :
    (showNextSongPopup d r s).songs = s.songs
      ∧ (showNextSongPopup d r s).currentSongIndex = s.currentSongIndex
      ∧ (showNextSongPopup d r s).playHistory = s.playHistory := by
  unfold showNextSongPopup setTimeout
  dsimp only
  repeat' split
  all_goals exact ⟨rfl, rfl, rfl⟩

theorem timerFire_frame (d : String) (r : Int) (id : Nat) (s : State) :
    (timerFire d r id s).songs = s.songs
      ∧ (timerFire d r id s).currentSongIndex = s.currentSongIndex
      ∧ (timerFire d r id s).playHistory = s.playHistory := by
  unfold timerFire
  split
  · exact ⟨rfl, rfl, rfl⟩
  · rename_i t _
    cases t.callback
    · exact showNextSongPopup_frame d r (clearTimeout id s)
    · exact ⟨rfl, rfl, rfl⟩
    · exact ⟨rfl, rfl, rfl⟩

theorem updateProgress_frame (f : Numerics) (s : State) :
    (updateProgress f s).songs = s.songs
      ∧ (updateProgress f s).currentSongIndex = s.currentSongIndex
      ∧ (updateProgress f s).playHistory = s.playHistory := by
  unfold updateProgress setTimeout clearTimeout
  dsimp only
  repeat' split
  all_goals exact ⟨rfl, rfl, rfl⟩

theorem togglePlay_frame (s : State) :
    (togglePlay s).songs = s.songs
      ∧ (togglePlay s).currentSongIndex = s.currentSongIndex
      ∧ (togglePlay s).playHistory = s.playHistory := by
  unfold togglePlay
  dsimp only
  repeat' split
  all_goals exact ⟨rfl, rfl, rfl⟩

theorem IndexInv.index_of_frame {s t : State} (h : IndexInv s) (h1 : t.songs = s.songs)
    (h2 : t.currentSongIndex = s.currentSongIndex) (h3 : t.playHistory = s.playHistory) :
    IndexInv t := by
  unfold IndexInv at *
  rw [h1, h2, h3]
  exact h

theorem IndexInv.index_after_loadSong (d : String) (i : Int) (s : State) (h : IndexInv s)
    (h0 : 0 ≤ i) (h1 : i < (s.songs.length : Int)) : IndexInv (loadSong d i s).state := by
  have hne : s.songs ≠ [] := by
    intro e; rw [e] at h1; simp at h1; omega
  unfold IndexInv
  rw [loadSong_songs, loadSong_playHistory, loadSong_currentSongIndex d i s hne]
  exact ⟨h0, Or.inl h1, h.2.2⟩

theorem IndexInv.index_after_thenPlay (o : Outcome) (h : IndexInv o.state) :
    IndexInv (thenPlay o).state :=
  h.index_of_frame (thenPlay_songs o) (thenPlay_currentSongIndex o) (thenPlay_playHistory o)

theorem IndexInv.index_current_lt {s : State} (h : IndexInv s) (hne : s.songs ≠ []) :
    s.currentSongIndex < (s.songs.length : Int) := by
  have hpos : 0 < s.songs.length := List.length_pos.mpr hne
  rcases h.2.1 with h1 | h1 <;> omega

theorem IndexInv.index_after_playNext (d : String) (r : Int) (s : State) (h : IndexInv s)
    (hr : s.isShuffle = true → s.songs ≠ [] → 0 ≤ r ∧ r < (s.songs.length : Int)) :
    IndexInv (playNext d r s).state := by
  by_cases hne : s.songs = []
  · have hl : s.songs.length = 0 := by simp [hne]
    unfold playNext
    simp only [hl, if_true]
    exact h
  · have hl : ¬ s.songs.length = 0 := by simpa using hne
    have hpos : (0 : Int) < (s.songs.length : Int) := by omega
    have hc := h.index_current_lt hne
    unfold playNext
    simp only [hl, if_false]
    apply IndexInv.index_after_thenPlay
    apply IndexInv.index_after_loadSong
    · refine ⟨h.1, h.2.1, ?_⟩
      intro v hv
      rcases List.mem_append.mp hv with hv | hv
      · exact h.2.2 v hv
      · rw [List.mem_singleton.mp hv]
        exact ⟨h.1, hc⟩
    · split
      · rename_i hsh
        exact (hr hsh hne).1
      · exact Int.tmod_nonneg _ (by have := h.1; omega)
    · split
      · rename_i hsh
        exact (hr hsh hne).2
      · exact Int.tmod_lt_of_pos _ hpos

theorem IndexInv.index_after_playPrevious (d : String) (s : State) (h : IndexInv s) :
    IndexInv (playPrevious d s).state := by
  by_cases hne : s.songs = []
  · have hl : s.songs.length = 0 := by simp [hne]
    unfold playPrevious
    simp only [hl, if_true]
    exact h
  · have hl : ¬ s.songs.length = 0 := by simpa using hne
    have hc := h.index_current_lt hne
    by_cases ht : s.audio.currentTime > 3
    · unfold playPrevious
      simp only [hl, if_false, ht, if_true]
      exact h
    · by_cases hlen : 1 < s.playHistory.length
      · obtain ⟨prev, cur, hprev, hsplit⟩ := two_last s.playHistory hlen
        have hmem : prev ∈ s.playHistory := by rw [hsplit]; simp
        rw [playPrevious_history_branch d s hne ht hlen prev hprev]
        apply IndexInv.index_after_thenPlay
        apply IndexInv.index_after_loadSong
        · refine ⟨h.1, h.2.1, ?_⟩
          intro v hv
          apply h.2.2 v
          rw [hsplit]
          exact List.mem_append_left _ hv
        · exact (h.2.2 prev hmem).1
        · exact (h.2.2 prev hmem).2
      · rw [playPrevious_decrement_branch d s hne ht hlen]
        apply IndexInv.index_after_thenPlay
        have h0 := h.1
        apply IndexInv.index_after_loadSong _ _ _ h
        · split <;> omega
        · split <;> omega

theorem IndexInv.index_after_step (d : String) (f : Numerics) (a : Action) (s : State)
    (h : IndexInv s) (ha : a.admissible s) : IndexInv (step d f a s) := by
  cases a with
  | importSongs newSongs =>
    obtain ⟨h0, h1, h2⟩ := h
    refine ⟨h0, ?_, ?_⟩
    · rcases h1 with h1 | h1
      · left
        show s.currentSongIndex < ((s.songs ++ newSongs).length : Int)
        rw [List.length_append]
        omega
      · exact Or.inr h1
    · intro v hv
      have := h2 v hv
      show 0 ≤ v ∧ v < ((s.songs ++ newSongs).length : Int)
      rw [List.length_append]
      omega
  | loadSong index => exact IndexInv.index_after_loadSong d index s h ha.1 ha.2
  | playlistItemClick index =>
    exact IndexInv.index_after_thenPlay _ (IndexInv.index_after_loadSong d index s h ha.1 ha.2)
  | playNext r => exact IndexInv.index_after_playNext d r s h ha
  | playPrevious => exact IndexInv.index_after_playPrevious d s h
  | togglePlay =>
    have hf := togglePlay_frame s
    exact h.index_of_frame hf.1 hf.2.1 hf.2.2
  | toggleShuffle => exact h
  | toggleRepeat => exact h
  | audioAdvance t dur => exact h
  | updateProgress =>
    have hf := updateProgress_frame f s
    exact h.index_of_frame hf.1 hf.2.1 hf.2.2
  | timerFire r id =>
    have hf := timerFire_frame d r id s
    exact h.index_of_frame hf.1 hf.2.1 hf.2.2

theorem IndexInv.index_of_reachable (d : String) (f : Numerics) (s : State)
    (h : Reachable d f s) : IndexInv s := by
  induction h with
  | init => exact ⟨le_refl _, Or.inr rfl, fun v hv => by cases hv⟩
  | step a s _ ha ih => exact IndexInv.index_after_step d f a s ih ha

/-- C6: in every state reachable from the initial state by importing songs,
`loadSong` on a playlist position, `playNext` (with `getRandomIndex` returning a
value in `[0, n)`), `playPrevious`, `togglePlay`, `toggleShuffle`,
`toggleRepeat` (and by the audio and timer events), `currentSongIndex` is a
valid index whenever the playlist is non-empty and every entry of `playHistory`
is a valid index. -/
theorem valid_index_invariant (d : String) (f : Numerics) (s : State)
    (h : Reachable d f s) :
    (s.songs ≠ [] → 0 ≤ s.currentSongIndex ∧ s.currentSongIndex < (s.songs.length : Int))
      ∧ ∀ v ∈ s.playHistory, 0 ≤ v ∧ v < (s.songs.length : Int) := by
  have hinv := IndexInv.index_of_reachable d f s h
  exact ⟨fun hne => ⟨hinv.1, hinv.index_current_lt hne⟩, hinv.2.2⟩

/-- Witness of C6: the state after `sampleSession` (three songs imported, "next"
pressed twice) is reachable; its index is 2, its history `[0, 1]`. -/
theorem valid_index_invariant_witness :
    (0 ≤ (run "cover.png" sampleNumerics sampleSession initialState).currentSongIndex
      ∧ (run "cover.png" sampleNumerics sampleSession initialState).currentSongIndex
        < ((run "cover.png" sampleNumerics sampleSession initialState).songs.length : Int))
      ∧ ∀ v ∈ (run "cover.png" sampleNumerics sampleSession initialState).playHistory,
          0 ≤ v
          ∧ v < ((run "cover.png" sampleNumerics sampleSession
              initialState).songs.length : Int) :=
  ⟨(valid_index_invariant "cover.png" sampleNumerics
      (run "cover.png" sampleNumerics sampleSession initialState)
      (Reachable.step (Action.playNext 0) _
        (Reachable.step (Action.playNext 0) _
          (Reachable.step
            (Action.importSongs [importedSong "a", importedSong "b", importedSong "c"]) _
            Reachable.init trivial)
          (fun hsh => absurd hsh (by decide)))
        (fun hsh => absurd hsh (by decide)))).1 (by decide),
   (valid_index_invariant "cover.png" sampleNumerics
      (run "cover.png" sampleNumerics sampleSession initialState)
      (Reachable.step (Action.playNext 0) _
        (Reachable.step (Action.playNext 0) _
          (Reachable.step
            (Action.importSongs [importedSong "a", importedSong "b", importedSong "c"]) _
            Reachable.init trivial)
          (fun hsh => absurd hsh (by decide)))
        (fun hsh => absurd hsh (by decide)))).2⟩

/-! ## The popup timer -/

theorem updateProgress_of_no_duration (f : Numerics) (s : State)
    (h : s.audio.duration = none ∨ s.audio.duration = some 0) : updateProgress f s = s := by
  unfold updateProgress
  rcases h with h | h <;> simp [h]

theorem updateProgress_eq (f : Numerics) (s : State) (dur : ℚ)
    (hdur : s.audio.duration = some dur) (h0 : dur ≠ 0) :
    updateProgress f s
      = if s.audio.currentTime < 1 then
          match (if popupDue f dur s then schedulePopup (showProgress f dur s)
                  else showProgress f dur s).nextSongPopupTimeout with
          | some id =>
            cancelPopup id (if popupDue f dur s then schedulePopup (showProgress f dur s)
              else showProgress f dur s)
          | none =>
            if popupDue f dur s then schedulePopup (showProgress f dur s)
            else showProgress f dur s
        else if popupDue f dur s then schedulePopup (showProgress f dur s)
        else showProgress f dur s := by
  unfold updateProgress
  simp only [hdur, h0, if_false]
  rfl

theorem TimersFresh.fresh_of_frame {s t : State} (h : TimersFresh s) (h1 : t.timers = s.timers)
    (h2 : t.timerSeq = s.timerSeq) : TimersFresh t := by
  unfold TimersFresh at *
  rw [h1, h2]
  exact h

theorem TimersWf.wf_of_frame {s t : State} (h : TimersWf s) (h1 : t.timers = s.timers)
    (h2 : t.timerSeq = s.timerSeq) (h3 : t.nextSongPopupTimeout = s.nextSongPopupTimeout) :
    TimersWf t := by
  refine ⟨h.1.fresh_of_frame h1 h2, ?_⟩
  unfold pendingPopups
  rw [h1, h3]
  exact h.2

theorem TimersWf.wf_after_showProgress (f : Numerics) (dur : ℚ) (s : State)
    (h : TimersWf s) : TimersWf (showProgress f dur s) :=
  h.wf_of_frame rfl rfl rfl

theorem fresh_id_not_pending (s : State) (hb : ∀ t ∈ s.timers, t.id ≤ s.timerSeq) :
    s.timerSeq + 1 ∉ s.timers.map Timer.id := by
  intro hmem
  obtain ⟨t, ht, hid⟩ := List.mem_map.mp hmem
  have := hb t ht
  omega

theorem TimersFresh.fresh_after_setTimeout (cb : Callback) (delay : Nat) (s : State)
    (h : TimersFresh s) : TimersFresh (setTimeout cb delay s).1 := by
  obtain ⟨h1, h2⟩ := h
  constructor
  · show ((s.timers ++ [Timer.mk (s.timerSeq + 1) delay cb]).map Timer.id).Nodup
    rw [List.map_append, List.map_singleton]
    apply List.Nodup.append h1 (List.nodup_singleton _)
    intro x hx hx2
    rw [List.mem_singleton] at hx2
    rw [hx2] at hx
    exact fresh_id_not_pending s h2 hx
  · intro t ht
    show t.id ≤ s.timerSeq + 1
    have ht2 : t ∈ s.timers ++ [Timer.mk (s.timerSeq + 1) delay cb] := ht
    rcases List.mem_append.mp ht2 with ht3 | ht3
    · have := h2 t ht3; omega
    · rw [List.mem_singleton.mp ht3]

theorem pendingPopups_setTimeout (cb : Callback) (delay : Nat) (s : State) :
    pendingPopups (setTimeout cb delay s).1
      = pendingPopups s ++ (if cb = Callback.showPopup then [s.timerSeq + 1] else []) := by
  show ((s.timers ++ [Timer.mk (s.timerSeq + 1) delay cb]).filter isPopupTimer).map Timer.id = _
  rw [List.filter_append, List.map_append]
  congr 1
  cases cb <;> rfl

theorem TimersWf.wf_after_schedulePopup (s : State) (h : TimersWf s)
    (hnone : s.nextSongPopupTimeout = none) : TimersWf (schedulePopup s) := by
  refine ⟨(h.1.fresh_after_setTimeout Callback.showPopup 100 s).fresh_of_frame rfl rfl, ?_⟩
  show pendingPopups (setTimeout Callback.showPopup 100 s).1 = [s.timerSeq + 1]
  rw [pendingPopups_setTimeout, h.2, hnone]
  rfl

theorem pendingPopups_clearTimeout (id : Nat) (s : State) :
    pendingPopups (clearTimeout id s) = (pendingPopups s).filter (fun x => x != id) := by
  unfold pendingPopups clearTimeout
  simp only [List.filter_filter, List.filter_map]
  congr 1
  apply List.filter_congr
  intro t _
  simp only [Function.comp, Bool.and_comm]

theorem TimersFresh.fresh_after_clearTimeout (id : Nat) (s : State) (h : TimersFresh s) :
    TimersFresh (clearTimeout id s) := by
  obtain ⟨h1, h2⟩ := h
  constructor
  · exact h1.sublist ((List.filter_sublist _).map _)
  · intro t ht
    exact h2 t (List.mem_filter.mp ht).1

theorem TimersWf.wf_after_cancelPopup (id : Nat) (s : State) (h : TimersWf s)
    (hsome : s.nextSongPopupTimeout = some id) : TimersWf (cancelPopup id s) := by
  refine ⟨(h.1.fresh_after_clearTimeout id s).fresh_of_frame rfl rfl, ?_⟩
  show pendingPopups (clearTimeout id s) = []
  rw [pendingPopups_clearTimeout, h.2, hsome]
  simp

theorem TimersWf.wf_after_updateProgress (f : Numerics) (s : State) (h : TimersWf s) :
    TimersWf (updateProgress f s) := by
  rcases hd : s.audio.duration with _ | dur
  · rw [updateProgress_of_no_duration f s (Or.inl hd)]; exact h
  · by_cases h0 : dur = 0
    · rw [updateProgress_of_no_duration f s (Or.inr (by rw [hd, h0]))]; exact h
    · rw [updateProgress_eq f s dur hd h0]
      have hs2 : TimersWf (if popupDue f dur s then schedulePopup (showProgress f dur s)
          else showProgress f dur s) := by
        split
        · rename_i hdue
          apply TimersWf.wf_after_schedulePopup _ (h.wf_after_showProgress f dur)
          have := hdue.2.2.1
          exact Option.isNone_iff_eq_none.mp this
        · exact h.wf_after_showProgress f dur
      split
      · split
        · rename_i id hid
          exact TimersWf.wf_after_cancelPopup id _ hs2 hid
        · exact hs2
      · exact hs2

theorem showNextSongPopup_timers (d : String) (r : Int) (s : State) (h : TimersFresh s) :
    TimersFresh (showNextSongPopup d r s)
      ∧ pendingPopups (showNextSongPopup d r s) = pendingPopups s
      ∧ (showNextSongPopup d r s).nextSongPopupTimeout = s.nextSongPopupTimeout := by
  unfold showNextSongPopup
  dsimp only
  split
  · exact ⟨h, rfl, rfl⟩
  · split
    · exact ⟨h, rfl, rfl⟩
    · refine ⟨TimersFresh.fresh_after_setTimeout _ _ _ (h.fresh_of_frame rfl rfl), ?_, rfl⟩
      rw [pendingPopups_setTimeout]
      simp only [reduceCtorEq, if_false, List.append_nil]
      rfl

theorem find_timer {s : State} {id : Nat} {t : Timer}
    (h : s.timers.find? (fun t => t.id == id) = some t) : t ∈ s.timers ∧ t.id = id := by
  refine ⟨List.mem_of_find?_eq_some h, ?_⟩
  have := List.find?_some h
  simpa using this

theorem not_pending_of_other {s : State} {t : Timer} (h : TimersFresh s) (ht : t ∈ s.timers)
    (hcb : t.callback ≠ Callback.showPopup) : t.id ∉ pendingPopups s := by
  intro hmem
  obtain ⟨u, hu, hid⟩ := List.mem_map.mp hmem
  obtain ⟨hu1, hu2⟩ := List.mem_filter.mp hu
  have heq : u = t := List.inj_on_of_nodup_map h.1 hu1 ht hid
  rw [heq] at hu2
  apply hcb
  simpa [isPopupTimer] using hu2

theorem TimersWf.wf_after_timerFire (d : String) (r : Int) (id : Nat) (s : State)
    (h : TimersWf s) : TimersWf (timerFire d r id s) := by
  unfold timerFire
  split
  · exact h
  · rename_i t hfind
    obtain ⟨hmem, hid⟩ := find_timer hfind
    have hfresh := h.1.fresh_after_clearTimeout id s
    rcases hcb : t.callback
    · -- the popup timer
      have hpend : id ∈ pendingPopups s := by
        rw [← hid]
        exact List.mem_map.mpr
          ⟨t, List.mem_filter.mpr ⟨hmem, by simp [isPopupTimer, hcb]⟩, rfl⟩
      obtain ⟨hf, hp, _⟩ := showNextSongPopup_timers d r _ hfresh
      refine ⟨hf.fresh_of_frame rfl rfl, ?_⟩
      show pendingPopups (showNextSongPopup d r (clearTimeout id s)) = []
      rw [hp, pendingPopups_clearTimeout]
      rw [h.2] at hpend ⊢
      rcases hto : s.nextSongPopupTimeout with _ | id0
      · rfl
      · rw [hto] at hpend
        have : id = id0 := by simpa using hpend
        simp [this]
    · have hnp : id ∉ pendingPopups s := by
        rw [← hid]
        exact not_pending_of_other h.1 hmem (by rw [hcb]; exact fun e => nomatch e)
      refine ⟨TimersFresh.fresh_after_setTimeout _ _ _ (hfresh.fresh_of_frame rfl rfl), ?_⟩
      show pendingPopups (setTimeout Callback.hidePopup 300
        { clearTimeout id s with popupVisible := false }).1 = s.nextSongPopupTimeout.toList
      rw [pendingPopups_setTimeout]
      simp only [reduceCtorEq, if_false, List.append_nil]
      show pendingPopups (clearTimeout id s) = _
      rw [pendingPopups_clearTimeout, ← h.2]
      apply List.filter_eq_self.mpr
      intro x hx
      have : x ≠ id := fun e => hnp (e ▸ hx)
      simpa using this
    · have hnp : id ∉ pendingPopups s := by
        rw [← hid]
        exact not_pending_of_other h.1 hmem (by rw [hcb]; exact fun e => nomatch e)
      refine ⟨hfresh.fresh_of_frame rfl rfl, ?_⟩
      show pendingPopups (clearTimeout id s) = s.nextSongPopupTimeout.toList
      rw [pendingPopups_clearTimeout, ← h.2]
      apply List.filter_eq_self.mpr
      intro x hx
      have : x ≠ id := fun e => hnp (e ▸ hx)
      simpa using this

theorem loadSong_timers (d : String) (i : Int) (s : State) :
    (loadSong d i s).state.timers = s.timers
      ∧ (loadSong d i s).state.timerSeq = s.timerSeq
      ∧ (loadSong d i s).state.nextSongPopupTimeout = s.nextSongPopupTimeout := by
  unfold loadSong
  dsimp only
  repeat' split
  all_goals exact ⟨rfl, rfl, rfl⟩

theorem thenPlay_timers (o : Outcome) :
    (thenPlay o).state.timers = o.state.timers
      ∧ (thenPlay o).state.timerSeq = o.state.timerSeq
      ∧ (thenPlay o).state.nextSongPopupTimeout = o.state.nextSongPopupTimeout := by
  cases o <;> exact ⟨rfl, rfl, rfl⟩

theorem TimersWf.wf_after_loadSong (d : String) (i : Int) (s : State) (h : TimersWf s) :
    TimersWf (loadSong d i s).state :=
  h.wf_of_frame (loadSong_timers d i s).1 (loadSong_timers d i s).2.1 (loadSong_timers d i s).2.2

theorem TimersWf.wf_after_thenPlay (o : Outcome) (h : TimersWf o.state) :
    TimersWf (thenPlay o).state :=
  h.wf_of_frame (thenPlay_timers o).1 (thenPlay_timers o).2.1 (thenPlay_timers o).2.2

theorem TimersWf.wf_after_playNext (d : String) (r : Int) (s : State) (h : TimersWf s) :
    TimersWf (playNext d r s).state := by
  unfold playNext
  split
  · exact h
  · exact TimersWf.wf_after_thenPlay _
      (TimersWf.wf_after_loadSong _ _ _ (h.wf_of_frame rfl rfl rfl))

theorem TimersWf.wf_after_playPrevious (d : String) (s : State) (h : TimersWf s) :
    TimersWf (playPrevious d s).state := by
  unfold playPrevious
  dsimp only
  split
  · exact h
  · split
    · exact h.wf_of_frame rfl rfl rfl
    · split
      · split
        · exact h.wf_of_frame rfl rfl rfl
        · exact TimersWf.wf_after_thenPlay _
            (TimersWf.wf_after_loadSong _ _ _ (h.wf_of_frame rfl rfl rfl))
      · exact TimersWf.wf_after_thenPlay _ (TimersWf.wf_after_loadSong _ _ _ h)

theorem TimersWf.wf_after_togglePlay (s : State) (h : TimersWf s) : TimersWf (togglePlay s) := by
  unfold togglePlay
  dsimp only
  repeat' split
  all_goals exact h.wf_of_frame rfl rfl rfl

theorem TimersWf.wf_after_step (d : String) (f : Numerics) (a : Action) (s : State)
    (h : TimersWf s) : TimersWf (step d f a s) := by
  cases a with
  | importSongs newSongs => exact h.wf_of_frame rfl rfl rfl
  | loadSong index => exact TimersWf.wf_after_loadSong d index s h
  | playlistItemClick index =>
    exact TimersWf.wf_after_thenPlay _ (TimersWf.wf_after_loadSong d index s h)
  | playNext r => exact TimersWf.wf_after_playNext d r s h
  | playPrevious => exact TimersWf.wf_after_playPrevious d s h
  | togglePlay => exact TimersWf.wf_after_togglePlay s h
  | toggleShuffle => exact h.wf_of_frame rfl rfl rfl
  | toggleRepeat => exact h.wf_of_frame rfl rfl rfl
  | audioAdvance t dur => exact h.wf_of_frame rfl rfl rfl
  | updateProgress => exact TimersWf.wf_after_updateProgress f s h
  | timerFire r id => exact TimersWf.wf_after_timerFire d r id s h

theorem TimersWf.wf_of_reachable (d : String) (f : Numerics) (s : State)
    (h : Reachable d f s) : TimersWf s := by
  induction h with
  | init => exact ⟨⟨List.nodup_nil, fun t ht => by cases ht⟩, rfl⟩
  | step a s _ _ ih => exact TimersWf.wf_after_step d f a s ih

/-! ## Debounce of the popup -/

theorem SamePopupState.trans {s t u : State} (h1 : SamePopupState s t)
    (h2 : SamePopupState t u) : SamePopupState s u := by
  unfold SamePopupState at *
  obtain ⟨a1, a2, a3, a4, a5, a6, a7⟩ := h1
  obtain ⟨b1, b2, b3, b4, b5, b6, b7⟩ := h2
  exact ⟨b1.trans a1, b2.trans a2, b3.trans a3, b4.trans a4, b5.trans a5, b6.trans a6,
    b7.trans a7⟩

theorem updateProgress_first (f : Numerics) (s : State) (p : ℚ × ℚ)
    (hsongs : 1 < s.songs.length) (hnone : s.nextSongPopupTimeout = none)
    (hwin : p.2 ≠ 0 ∧ f.sub p.2 p.1 ≤ 10 ∧ f.sub p.2 p.1 > 9.5 ∧ 1 ≤ p.1) :
    updateProgress f (audioAdvance p.1 (some p.2) s)
      = schedulePopup (showProgress f p.2 (audioAdvance p.1 (some p.2) s)) := by
  have h0 : p.2 ≠ 0 := hwin.1
  have hdue : popupDue f p.2 (audioAdvance p.1 (some p.2) s) :=
    ⟨hwin.2.1, hwin.2.2.1,
      by show s.nextSongPopupTimeout.isNone = true; rw [hnone]; rfl, hsongs⟩
  have hnot : ¬ (audioAdvance p.1 (some p.2) s).audio.currentTime < 1 :=
    not_lt.mpr hwin.2.2.2
  rw [updateProgress_eq f _ p.2 rfl h0]
  simp only [hnot, if_false, hdue, if_true]

theorem updateProgress_later (f : Numerics) (s : State) (p : ℚ × ℚ) (id : Nat)
    (hsome : s.nextSongPopupTimeout = some id)
    (hwin : p.2 ≠ 0 ∧ f.sub p.2 p.1 ≤ 10 ∧ f.sub p.2 p.1 > 9.5 ∧ 1 ≤ p.1) :
    updateProgress f (audioAdvance p.1 (some p.2) s)
      = showProgress f p.2 (audioAdvance p.1 (some p.2) s) := by
  have h0 : p.2 ≠ 0 := hwin.1
  have hdue : ¬ popupDue f p.2 (audioAdvance p.1 (some p.2) s) := by
    intro h
    have h3 : s.nextSongPopupTimeout.isNone = true := h.2.2.1
    rw [hsome] at h3
    cases h3
  have hnot : ¬ (audioAdvance p.1 (some p.2) s).audio.currentTime < 1 :=
    not_lt.mpr hwin.2.2.2
  rw [updateProgress_eq f _ p.2 rfl h0]
  simp only [hnot, if_false, hdue]

theorem progressEvents_later (f : Numerics) (ps : List (ℚ × ℚ)) :
    ∀ (s : State) (id : Nat), s.nextSongPopupTimeout = some id →
      (∀ p ∈ ps, p.2 ≠ 0 ∧ f.sub p.2 p.1 ≤ 10 ∧ f.sub p.2 p.1 > 9.5 ∧ 1 ≤ p.1) →
      SamePopupState s (progressEvents f ps s) := by
  induction ps with
  | nil => intro s id _ _; exact ⟨rfl, rfl, rfl, rfl, rfl, rfl, rfl⟩
  | cons p ps ih =>
    intro s id hsome hwin
    have hstep := updateProgress_later f s p id hsome (hwin p (List.mem_cons_self _ _))
    have hsame : SamePopupState s (updateProgress f (audioAdvance p.1 (some p.2) s)) := by
      rw [hstep]; exact ⟨rfl, rfl, rfl, rfl, rfl, rfl, rfl⟩
    have hrest := ih (updateProgress f (audioAdvance p.1 (some p.2) s)) id
      (by rw [hsame.2.2.2.2.2.1]; exact hsome)
      (fun q hq => hwin q (List.mem_cons_of_mem _ hq))
    exact hsame.trans hrest

theorem progressEvents_window (f : Numerics) (s : State) (times : List (ℚ × ℚ))
    (hsongs : 1 < s.songs.length) (hnone : s.nextSongPopupTimeout = none)
    (hne : times ≠ [])
    (hwin : ∀ p ∈ times, p.2 ≠ 0 ∧ f.sub p.2 p.1 ≤ 10 ∧ f.sub p.2 p.1 > 9.5 ∧ 1 ≤ p.1) :
    (progressEvents f times s).songs = s.songs
      ∧ (progressEvents f times s).currentSongIndex = s.currentSongIndex
      ∧ (progressEvents f times s).isShuffle = s.isShuffle
      ∧ (progressEvents f times s).timers
          = s.timers ++ [Timer.mk (s.timerSeq + 1) 100 Callback.showPopup]
      ∧ (progressEvents f times s).timerSeq = s.timerSeq + 1
      ∧ (progressEvents f times s).nextSongPopupTimeout = some (s.timerSeq + 1)
      ∧ (progressEvents f times s).popupShowCount = s.popupShowCount := by
  cases times with
  | nil => exact absurd rfl hne
  | cons p ps =>
    have hfirst := updateProgress_first f s p hsongs hnone (hwin p (List.mem_cons_self _ _))
    have hrest := progressEvents_later f ps
      (updateProgress f (audioAdvance p.1 (some p.2) s)) (s.timerSeq + 1)
      (by rw [hfirst]; rfl) (fun q hq => hwin q (List.mem_cons_of_mem _ hq))
    obtain ⟨a1, a2, a3, a4, a5, a6, a7⟩ := hrest
    have hunf : progressEvents f (p :: ps) s
        = progressEvents f ps (updateProgress f (audioAdvance p.1 (some p.2) s)) := rfl
    rw [hunf]
    rw [hfirst] at a1 a2 a3 a4 a5 a6 a7 ⊢
    exact ⟨a1, a2, a3, a4, a5, a6, a7⟩

theorem find_fresh_timer (old : List Timer) (n : Nat) (cb : Callback) (delay : Nat)
    (hold : ∀ t ∈ old, t.id ≤ n) :
    (old ++ [Timer.mk (n + 1) delay cb]).find? (fun t => t.id == n + 1)
      = some (Timer.mk (n + 1) delay cb) := by
  have hnone : old.find? (fun t => t.id == n + 1) = none := by
    rw [List.find?_eq_none]
    intro t ht
    have := hold t ht
    simp only [beq_iff_eq]
    omega
  rw [List.find?_append, hnone]
  simp

theorem filter_fresh_timer (old : List Timer) (n : Nat) (cb : Callback) (delay : Nat)
    (hold : ∀ t ∈ old, t.id ≤ n) :
    (old ++ [Timer.mk (n + 1) delay cb]).filter (fun t => t.id != n + 1) = old := by
  rw [List.filter_append]
  have h1 : old.filter (fun t => t.id != n + 1) = old := by
    apply List.filter_eq_self.mpr
    intro t ht
    have := hold t ht
    simp only [bne_iff_ne, ne_eq]
    omega
  rw [h1]
  simp

theorem timerFire_popup (d : String) (r : Int) (s : State) (old : List Timer) (n : Nat)
    (song : Song)
    (ht : s.timers = old ++ [Timer.mk (n + 1) 100 Callback.showPopup])
    (hold : ∀ t ∈ old, t.id ≤ n) (hsongs : 1 < s.songs.length)
    (hsong : songAt s.songs
        (if s.isShuffle then r
          else Int.tmod (s.currentSongIndex + 1) (s.songs.length : Int)) = some song) :
    (timerFire d r (n + 1) s).popupShowCount = s.popupShowCount + 1
      ∧ (timerFire d r (n + 1) s).nextSongPopupTimeout = none
      ∧ pendingPopups (timerFire d r (n + 1) s) = (old.filter isPopupTimer).map Timer.id := by
  have hfind := find_fresh_timer old n Callback.showPopup 100 hold
  have hfilter := filter_fresh_timer old n Callback.showPopup 100 hold
  have hnot : ¬ s.songs.length ≤ 1 := by omega
  have hclear : (clearTimeout (n + 1) s).timers = old := by
    show s.timers.filter (fun t => t.id != n + 1) = old
    rw [ht, hfilter]
  have hshow : showNextSongPopup d r (clearTimeout (n + 1) s)
      = (setTimeout Callback.fadePopup 5000
          { clearTimeout (n + 1) s with
            popupCover := if truthy song.coverUrl then song.coverUrl.getD "" else d
            popupTitle := song.title
            popupArtist := song.artist
            popupHidden := false
            popupVisible := true
            popupShowCount := s.popupShowCount + 1 }).1 := by
    unfold showNextSongPopup
    have hsong2 : songAt (clearTimeout (n + 1) s).songs
        (if (clearTimeout (n + 1) s).isShuffle = true then r
          else Int.tmod ((clearTimeout (n + 1) s).currentSongIndex + 1)
            ((clearTimeout (n + 1) s).songs.length : Int)) = some song := hsong
    have hnot2 : ¬ (clearTimeout (n + 1) s).songs.length ≤ 1 := hnot
    simp only [hnot2, if_false, hsong2]
    rfl
  have hfire : timerFire d r (n + 1) s
      = { showNextSongPopup d r (clearTimeout (n + 1) s) with nextSongPopupTimeout := none } := by
    unfold timerFire
    rw [ht, hfind]
    rfl
  rw [hfire, hshow]
  refine ⟨rfl, rfl, ?_⟩
  show ((setTimeout Callback.fadePopup 5000 _).1.timers.filter isPopupTimer).map Timer.id = _
  show (((clearTimeout (n + 1) s).timers ++ [_]).filter isPopupTimer).map Timer.id = _
  rw [hclear, List.filter_append, List.map_append]
  simp [isPopupTimer]

/-- C8, as stated, fails. With three songs and a 256 s track, a `timeupdate` at
246.125 s (`256 - 246.125` is the double 9.875) schedules popup timer 1; the
timer expires and the popup is shown; a `timeupdate` at 246.375 s (9.625 s
remaining, still inside the window) schedules popup timer 3, whose expiry
shows the popup a second time. And on a 10 s track a `timeupdate` at 0 s (10 s
remaining) schedules a timer and cancels it at once: no timer is pending and
no popup is shown. -/
theorem popup_debounce_counterexample :
    (sampleNumerics.sub 256 246.125 ≤ 10 ∧ sampleNumerics.sub 256 246.125 > 9.5)
      ∧ (sampleNumerics.sub 256 246.375 ≤ 10 ∧ sampleNumerics.sub 256 246.375 > 9.5)
      ∧ pendingPopups (run "cover.png" sampleNumerics
          [Action.audioAdvance 246.125 (some 256), Action.updateProgress] threeSongs) = [1]
      ∧ pendingPopups (run "cover.png" sampleNumerics
          [Action.audioAdvance 246.125 (some 256), Action.updateProgress,
            Action.timerFire 0 1,
            Action.audioAdvance 246.375 (some 256), Action.updateProgress] threeSongs) = [3]
      ∧ (run "cover.png" sampleNumerics
          [Action.audioAdvance 246.125 (some 256), Action.updateProgress,
            Action.timerFire 0 1,
            Action.audioAdvance 246.375 (some 256), Action.updateProgress,
            Action.timerFire 0 3] threeSongs).popupShowCount = 2
      ∧ (sampleNumerics.sub 10 0 ≤ 10 ∧ sampleNumerics.sub 10 0 > 9.5)
      ∧ (run "cover.png" sampleNumerics
          [Action.audioAdvance 0 (some 10), Action.updateProgress] threeSongs).timers = []
      ∧ (run "cover.png" sampleNumerics
          [Action.audioAdvance 0 (some 10), Action.updateProgress] threeSongs).timerSeq = 1
      ∧ (run "cover.png" sampleNumerics
          [Action.audioAdvance 0 (some 10), Action.updateProgress,
            Action.timerFire 0 1] threeSongs).popupShowCount = 0 := by
  refine ⟨by norm_num [sampleNumerics], by norm_num [sampleNumerics], by decide!,
    by decide!, by decide!, by norm_num [sampleNumerics], by decide!, by decide!,
    by decide!⟩

/-- C8, amended: in a reachable state at most one popup timer is pending. With
more than one song and no popup timer pending, any non-empty run of
`updateProgress` events with a known, non-zero duration whose remaining time,
the double `duration - currentTime` of line 377, lies in `(9.5, 10]` (at a
position of at least 1 s, with no timer expiry in between) schedules exactly
one popup timer, whatever the number of events; when that timer expires the
popup is shown exactly once and no popup timer is left pending. -/
theorem popup_debounce (d : String) (f : Numerics) (s : State) (h : Reachable d f s) :
    (pendingPopups s).length ≤ 1
      ∧ ∀ (times : List (ℚ × ℚ)) (r : Int),
        1 < s.songs.length → s.nextSongPopupTimeout = none → times ≠ [] →
        (∀ p ∈ times, p.2 ≠ 0 ∧ f.sub p.2 p.1 ≤ 10 ∧ f.sub p.2 p.1 > 9.5 ∧ 1 ≤ p.1) →
        (s.isShuffle = true → 0 ≤ r ∧ r < (s.songs.length : Int)) →
        (progressEvents f times s).timerSeq = s.timerSeq + 1
          ∧ pendingPopups (progressEvents f times s) = [s.timerSeq + 1]
          ∧ (progressEvents f times s).nextSongPopupTimeout = some (s.timerSeq + 1)
          ∧ (progressEvents f times s).popupShowCount = s.popupShowCount
          ∧ (timerFire d r (s.timerSeq + 1) (progressEvents f times s)).popupShowCount
              = s.popupShowCount + 1
          ∧ pendingPopups (timerFire d r (s.timerSeq + 1) (progressEvents f times s)) = []
          ∧ (timerFire d r (s.timerSeq + 1) (progressEvents f times s)).nextSongPopupTimeout
              = none := by
  have hwf := TimersWf.wf_of_reachable d f s h
  have hinv := IndexInv.index_of_reachable d f s h
  constructor
  · rw [hwf.2]
    cases s.nextSongPopupTimeout <;> simp
  · intro times r hsongs hnone hne hwin hr
    obtain ⟨a1, a2, a3, a4, a5, a6, a7⟩ := progressEvents_window f s times hsongs hnone hne hwin
    have hold : (s.timers.filter isPopupTimer).map Timer.id = [] := by
      have := hwf.2
      rw [hnone] at this
      exact this
    have hpos : (0 : Int) < (s.songs.length : Int) := by omega
    have hvalid : 0 ≤ (if s.isShuffle then r
          else Int.tmod (s.currentSongIndex + 1) (s.songs.length : Int))
        ∧ (if s.isShuffle then r
          else Int.tmod (s.currentSongIndex + 1) (s.songs.length : Int))
          < (s.songs.length : Int) := by
      split
      · rename_i hsh
        exact hr hsh
      · exact ⟨Int.tmod_nonneg _ (by have := hinv.1; omega), Int.tmod_lt_of_pos _ hpos⟩
    obtain ⟨song, hsong⟩ := songAt_valid s.songs _ hvalid.1 hvalid.2
    obtain ⟨b1, b2, b3⟩ := timerFire_popup d r (progressEvents f times s) s.timers s.timerSeq
      song a4 hwf.1.2 (by rw [a1]; exact hsongs) (by rw [a1, a2, a3]; exact hsong)
    refine ⟨a5, ?_, a6, a7, ?_, ?_, b2⟩
    · unfold pendingPopups
      rw [a4, List.filter_append, List.map_append, hold]
      rfl
    · rw [b1, a7]
    · rw [b3, hold]

/-- Witness of C8 amended: three songs, a 256 s track, `timeupdate` events at
246.125 s and 246.375 s, then the expiry of timer 1. -/
theorem popup_debounce_witness :
    (progressEvents sampleNumerics [(246.125, 256), (246.375, 256)] threeSongs).timerSeq = 1
      ∧ pendingPopups
          (progressEvents sampleNumerics [(246.125, 256), (246.375, 256)] threeSongs) = [1]
      ∧ (timerFire "cover.png" 0 1
          (progressEvents sampleNumerics [(246.125, 256), (246.375, 256)]
            threeSongs)).popupShowCount = 1 := by
  have h := (popup_debounce "cover.png" sampleNumerics threeSongs
    (Reachable.step (Action.importSongs [importedSong "a", importedSong "b", importedSong "c"])
      _ Reachable.init trivial)).2 [(246.125, 256), (246.375, 256)] 0
    (by decide) rfl (by simp)
    (by
      intro p hp
      simp only [List.mem_cons, List.mem_singleton, List.not_mem_nil, or_false] at hp
      rcases hp with rfl | rfl <;> norm_num [sampleNumerics])
    (fun hsh => absurd hsh (by decide))
  exact ⟨h.1, h.2.1, h.2.2.2.2.1⟩

/-! ## Cancelling the popup -/

/-- C9, as stated, fails. A popup timer is pending (scheduled at 9.875 s
remaining); "next" is pressed, the audio element starts loading the new source
and reports position 0 with duration `NaN`; `updateProgress` returns at its
`if (duration)` guard, the timer stays pending (`nextSongPopupTimeout` is still
1) and its expiry shows the popup. -/
theorem updateProgress_cancel_counterexample :
    (run "cover.png" sampleNumerics
        [Action.audioAdvance 246.125 (some 256), Action.updateProgress, Action.playNext 0,
          Action.audioAdvance 0 none] threeSongs).nextSongPopupTimeout = some 1
      ∧ (run "cover.png" sampleNumerics
        [Action.audioAdvance 246.125 (some 256), Action.updateProgress, Action.playNext 0,
          Action.audioAdvance 0 none] threeSongs).audio.currentTime < 1
      ∧ (run "cover.png" sampleNumerics
        [Action.audioAdvance 246.125 (some 256), Action.updateProgress, Action.playNext 0,
          Action.audioAdvance 0 none, Action.updateProgress] threeSongs).nextSongPopupTimeout
          = some 1
      ∧ pendingPopups (run "cover.png" sampleNumerics
        [Action.audioAdvance 246.125 (some 256), Action.updateProgress, Action.playNext 0,
          Action.audioAdvance 0 none, Action.updateProgress] threeSongs) = [1]
      ∧ (run "cover.png" sampleNumerics
        [Action.audioAdvance 246.125 (some 256), Action.updateProgress, Action.playNext 0,
          Action.audioAdvance 0 none, Action.updateProgress,
          Action.timerFire 0 1] threeSongs).popupShowCount = 1 := by
  refine ⟨by decide!, by decide!, by decide!, by decide!, by decide!⟩

theorem updateProgress_handle_none (f : Numerics) (s : State) (dur : ℚ)
    (hdur : s.audio.duration = some dur) (h0 : dur ≠ 0) (ht : s.audio.currentTime < 1) :
    (updateProgress f s).nextSongPopupTimeout = none := by
  rw [updateProgress_eq f s dur hdur h0]
  simp only [ht, if_true]
  split
  · rfl
  · assumption

/-- C9, amended: in a state with well-formed timers (every reachable state), an
`updateProgress` event with `currentTime < 1` and a known, non-zero duration
cancels a pending popup timer: afterwards `nextSongPopupTimeout` is null, no
popup timer is pending, and no timer expiry shows a popup. -/
theorem updateProgress_cancels (d : String) (f : Numerics) (s : State) (dur : ℚ)
    (hwf : TimersWf s) (hdur : s.audio.duration = some dur) (h0 : dur ≠ 0)
    (ht : s.audio.currentTime < 1) :
    (updateProgress f s).nextSongPopupTimeout = none
      ∧ pendingPopups (updateProgress f s) = []
      ∧ ∀ (r : Int) (id : Nat),
          (timerFire d r id (updateProgress f s)).popupShowCount
            = (updateProgress f s).popupShowCount := by
  have hnone := updateProgress_handle_none f s dur hdur h0 ht
  have hwf2 := TimersWf.wf_after_updateProgress f s hwf
  have hpend : pendingPopups (updateProgress f s) = [] := by
    rw [hwf2.2, hnone]
    rfl
  refine ⟨hnone, hpend, ?_⟩
  intro r id
  unfold timerFire
  split
  · rfl
  · rename_i t hfind
    obtain ⟨hmem, _⟩ := find_timer hfind
    rcases hcb : t.callback
    · exfalso
      have : t.id ∈ pendingPopups (updateProgress f s) :=
        List.mem_map.mpr ⟨t, List.mem_filter.mpr ⟨hmem, by simp [isPopupTimer, hcb]⟩, rfl⟩
      rw [hpend] at this
      cases this
    · rfl
    · rfl

/-- Witness of C9 amended: a popup timer is pending and the user seeks back to
0.5 s of the 256 s track. -/
theorem updateProgress_cancels_witness :
    (updateProgress sampleNumerics
        (run "cover.png" sampleNumerics
          [Action.audioAdvance 246.125 (some 256), Action.updateProgress,
            Action.audioAdvance 0.5 (some 256)] threeSongs)).nextSongPopupTimeout = none
      ∧ pendingPopups (updateProgress sampleNumerics
        (run "cover.png" sampleNumerics
          [Action.audioAdvance 246.125 (some 256), Action.updateProgress,
            Action.audioAdvance 0.5 (some 256)] threeSongs)) = [] := by
  have h := updateProgress_cancels "cover.png" sampleNumerics
    (run "cover.png" sampleNumerics
      [Action.audioAdvance 246.125 (some 256), Action.updateProgress,
        Action.audioAdvance 0.5 (some 256)] threeSongs) 256
    (TimersWf.wf_of_reachable "cover.png" sampleNumerics _
      (Reachable.step (Action.audioAdvance 0.5 (some 256)) _
        (Reachable.step Action.updateProgress _
          (Reachable.step (Action.audioAdvance 246.125 (some 256)) _
            (Reachable.step
              (Action.importSongs [importedSong "a", importedSong "b", importedSong "c"])
              _ Reachable.init trivial)
            trivial)
          trivial)
        trivial))
    rfl (by norm_num) (by show (0.5 : ℚ) < 1; norm_num)
  exact ⟨h.1, h.2.1⟩

/-! ## "Next" followed by "previous" -/

theorem playNext_currentTime (d : String) (r : Int) (s : State) :
    (playNext d r s).state.audio.currentTime = s.audio.currentTime := by
  unfold playNext
  split
  · rfl
  · rw [thenPlay_currentTime, loadSong_currentTime]

theorem playNext_playHistory (d : String) (r : Int) (s : State) (hne : s.songs ≠ []) :
    (playNext d r s).state.playHistory = s.playHistory ++ [s.currentSongIndex] := by
  have hl : ¬ s.songs.length = 0 := by simpa using hne
  unfold playNext
  simp only [hl, if_false, thenPlay_playHistory, loadSong_playHistory]

/-- What "next" followed by "previous" does, shuffle off, from a valid index
`c`, when `playPrevious` navigates: with an empty history it comes back to `c`;
with a history ending in `x` it loads `x`, the track played before `c`. -/
theorem playNext_then_playPrevious (d : String) (r : Int) (s : State)
    (hne : s.songs ≠ []) (h0 : 0 ≤ s.currentSongIndex)
    (h1 : s.currentSongIndex < (s.songs.length : Int)) (hsh : s.isShuffle = false)
    (ht : ¬ s.audio.currentTime > 3) :
    (s.playHistory = [] →
        (playPrevious d (playNext d r s).state).state.currentSongIndex = s.currentSongIndex)
      ∧ (∀ (h : List Int) (x : Int), s.playHistory = h ++ [x] →
        (playPrevious d (playNext d r s).state).state.currentSongIndex = x) := by
  have hsongs := playNext_songs d r s
  have hhist := playNext_playHistory d r s hne
  have htime := playNext_currentTime d r s
  have hne1 : (playNext d r s).state.songs ≠ [] := by rw [hsongs]; exact hne
  have ht1 : ¬ (playNext d r s).state.audio.currentTime > 3 := by rw [htime]; exact ht
  have hpos : 0 < s.songs.length := List.length_pos.mpr hne
  constructor
  · intro hempty
    have hlen : ¬ 1 < (playNext d r s).state.playHistory.length := by
      rw [hhist, hempty]; simp
    rw [playPrevious_decrement_branch d _ hne1 ht1 hlen, thenPlay_currentSongIndex,
      loadSong_currentSongIndex _ _ _ hne1, hsongs,
      (playNext_sequential d r s hne h0 h1 hsh).1]
    by_cases hwrap : s.currentSongIndex + 1 < (s.songs.length : Int)
    · rw [Int.emod_eq_of_lt (by omega) hwrap]
      split <;> omega
    · have hlast : s.currentSongIndex + 1 = (s.songs.length : Int) := by omega
      rw [hlast, Int.emod_self]
      split <;> omega
  · intro h x hsplit
    have hlen : 1 < (playNext d r s).state.playHistory.length := by
      rw [hhist, hsplit]; simp
    have hprev : (playNext d r s).state.playHistory.dropLast.getLast? = some x := by
      rw [hhist, hsplit, List.dropLast_concat]
      simp
    rw [playPrevious_history_branch d _ hne1 ht1 hlen x hprev, thenPlay_currentSongIndex,
      loadSong_currentSongIndex _ _ _ (by simpa using hne1)]

/-- C11 at a failing input: three songs are imported and "next" is pressed once,
so the second song (index 1) is current, shuffle is off and the history is
`[0]`. "Next" moves to index 2 and pushes 1; "previous", pressed at once (the
position is 0, it navigates and returns normally), pops 1 as if it were the
current track, pops 0 and loads index 0: the index is not back at 1. -/
theorem next_previous_round_trip_fails :
    (run "cover.png" sampleNumerics
        [Action.importSongs [importedSong "a", importedSong "b", importedSong "c"],
          Action.playNext 0] initialState).songs.length = 3
      ∧ (run "cover.png" sampleNumerics
        [Action.importSongs [importedSong "a", importedSong "b", importedSong "c"],
          Action.playNext 0] initialState).currentSongIndex = 1
      ∧ (run "cover.png" sampleNumerics
        [Action.importSongs [importedSong "a", importedSong "b", importedSong "c"],
          Action.playNext 0] initialState).isShuffle = false
      ∧ (run "cover.png" sampleNumerics
        [Action.importSongs [importedSong "a", importedSong "b", importedSong "c"],
          Action.playNext 0] initialState).playHistory = [0]
      ∧ (playNext "cover.png" 0
          (run "cover.png" sampleNumerics
            [Action.importSongs [importedSong "a", importedSong "b", importedSong "c"],
              Action.playNext 0] initialState)).state.currentSongIndex = 2
      ∧ (playNext "cover.png" 0
          (run "cover.png" sampleNumerics
            [Action.importSongs [importedSong "a", importedSong "b", importedSong "c"],
              Action.playNext 0] initialState)).state.playHistory = [0, 1]
      ∧ ¬ (playNext "cover.png" 0
          (run "cover.png" sampleNumerics
            [Action.importSongs [importedSong "a", importedSong "b", importedSong "c"],
              Action.playNext 0] initialState)).state.audio.currentTime > 3
      ∧ (playPrevious "cover.png"
          (playNext "cover.png" 0
            (run "cover.png" sampleNumerics
              [Action.importSongs [importedSong "a", importedSong "b", importedSong "c"],
                Action.playNext 0] initialState)).state).returned = true
      ∧ (playPrevious "cover.png"
          (playNext "cover.png" 0
            (run "cover.png" sampleNumerics
              [Action.importSongs [importedSong "a", importedSong "b", importedSong "c"],
                Action.playNext 0] initialState)).state).state.currentSongIndex = 0
      ∧ (playPrevious "cover.png"
          (playNext "cover.png" 0
            (run "cover.png" sampleNumerics
              [Action.importSongs [importedSong "a", importedSong "b", importedSong "c"],
                Action.playNext 0] initialState)).state).state.playHistory = [] := by
  refine ⟨by decide, by decide, by decide, by decide, by decide, by decide, by decide,
    by decide, by decide, by decide⟩

end MusicPlayer
